import Mathlib

/-!
# mcelog `memdb.c`: in-memory DIMM error database

A shallow embedding of `src/memdb.c` and theorems about it.

Conventions of the embedding.

* C `int` values are `Int`; `unsigned`, `unsigned long` and `time_t` bit patterns are
  `Nat`, reduced modulo `2^32` or `2^64` where the C arithmetic wraps.
* Records live in a heap: `xalloc` hands out the next free address (the index of the
  record in `memdb.heap`), a `struct memdimm *` is such an address, and the `next`
  links of a bucket chain are the order of the address list `md_dimms h`.
* Collaborators that are not part of `memdb.c` (the leaky bucket, the environment) are
  the fields of `Ext`; the theorems hold for every `Ext`.
-/

set_option autoImplicit false
set_option maxRecDepth 100000

namespace Memdb

/-! ## Data model -/

/-- Modelled from the spec: `struct leaky_bucket` of `leaky-bucket.h` (the threshold state,
opaque to `memdb.c` except for `count` and `excess`, which `memdb_trigger` reads). -/
structure leaky_bucket where
  count : Nat
  excess : Nat
  tstamp : Nat
deriving DecidableEq, Repr

/-- Modelled from the spec: `struct bucket_conf` of `leaky-bucket.h` (the threshold
configuration); `memdb.c` reads `trigger` and `agetime`. -/
structure bucket_conf where
  capacity : Nat
  agetime : Nat
  tunit : Nat
  log : Nat
  trigger : Option String
deriving DecidableEq, Repr

/-- Modelled from the spec: `struct err_type` of `memdb.h`, a leaky bucket and an
`unsigned long` total. -/
structure err_type where
  bucket : leaky_bucket
  count : Nat
deriving DecidableEq, Repr

/-- The record `struct memdimm` without its `next` link; `memdev` is the pointer to the
firmware entry, `none` being `NULL`, and so are `name` and `location`. -/
structure memdimm where
  channel : Int
  dimm : Int
  socketid : Int
  ce : err_type
  uc : err_type
  name : Option String
  location : Option String
  memdev : Option Nat
deriving DecidableEq, Repr

/-- Modelled from the spec: the fields of `struct mce` (`mcelog.h`) that `memory_error`
reads: `__u64 time`, `__u32 socketid`, `__u64 status`. -/
structure mce where
  time : Nat
  socketid : Nat
  status : Nat
deriving DecidableEq, Repr

/-- The collaborators of `memdb.c`: `bucket_init`, `__bucket_account` and `bucket_output`
of `leaky-bucket.c`, and the value of `getenv("PATH")`. `bucket_account` returns whether
the threshold was crossed together with the bucket it leaves behind. -/
structure Ext where
  bucket_init : leaky_bucket → leaky_bucket
  bucket_account : bucket_conf → leaky_bucket → Nat → Nat → Bool × leaky_bucket
  bucket_output : bucket_conf → leaky_bucket → String
  getenv_PATH : Option String

def SHASH : Nat := 17

/-- The file-scope state of `memdb.c`: the heap of allocated records, `md_numdimms`, the
bucket heads `md_dimms` (entries `0 .. SHASH-1` are the array), the two configurations,
`memdb_enabled`, and the `initialized` latch of `prefill_memdb`. -/
structure memdb where
  heap : List memdimm
  md_numdimms : Int
  md_dimms : Nat → List Nat
  ce_bucket_conf : bucket_conf
  uc_bucket_conf : bucket_conf
  memdb_enabled : Int
  initialized : Int

def FNV32_OFFSET : Nat := 2166136261
def FNV32_PRIME : Nat := 0x01000193

/-- The macro `O(x)`: `(x) & 0xff`. -/
def O (x : Nat) : Nat := x &&& 0xff

/-- Conversion of an `int` to `unsigned` (32 bit). -/
def to_unsigned (x : Int) : Nat := (x % 4294967296).toNat

/-- Conversion of a 32-bit pattern to `int`. -/
def to_int (x : Nat) : Int :=
  if x % 4294967296 < 2147483648 then (x % 4294967296 : Nat) else (x % 4294967296 : Nat) - 4294967296

/-- FNV 1a 32bit over the two low bytes of the socket and the low bytes of dimm and
channel. `dimm` is an `int` in the source; `O(dimm)` is the low byte of its pattern. -/
def dimmhash (socket : Nat) (dimm : Int) (ch : Nat) : Nat :=
  let hash := FNV32_OFFSET
  let hash := ((hash ^^^ O socket) * FNV32_PRIME) % 4294967296
  let hash := ((hash ^^^ O (socket >>> 8)) * FNV32_PRIME) % 4294967296
  let hash := ((hash ^^^ O (to_unsigned dimm)) * FNV32_PRIME) % 4294967296
  let hash := ((hash ^^^ O ch) * FNV32_PRIME) % 4294967296
  hash % SHASH

/-- The test of the search loop: all three key fields are equal. -/
def key_match (socketid channel dimm : Int) (md : memdimm) : Bool :=
  md.socketid == socketid && md.channel == channel && md.dimm == dimm

/-- The search loop of `get_memdimm` over one chain: the first address whose record has
the key. -/
def find_memdimm (heap : List memdimm) (socketid channel dimm : Int) (chain : List Nat) :
    Option Nat :=
  chain.find? (fun a => match heap[a]? with
    | some md => key_match socketid channel dimm md
    | none => false)

/-- Storage as `xalloc` (of `memutil.c`) returns it: zero-filled. -/
def memdimm_zero : memdimm :=
  { channel := 0, dimm := 0, socketid := 0,
    ce := { bucket := { count := 0, excess := 0, tstamp := 0 }, count := 0 },
    uc := { bucket := { count := 0, excess := 0, tstamp := 0 }, count := 0 },
    name := none, location := none, memdev := none }

/-- The record a miss builds: zero-filled storage, the three key fields assigned, and
`bucket_init` run on both buckets. -/
def fresh_memdimm (x : Ext) (socketid channel dimm : Int) : memdimm :=
  let md := memdimm_zero
  let md := { md with socketid := socketid }
  let md := { md with channel := channel }
  let md := { md with dimm := dimm }
  let md := { md with ce := { md.ce with bucket := x.bucket_init md.ce.bucket } }
  let md := { md with uc := { md.uc with bucket := x.bucket_init md.uc.bucket } }
  md

/-- Search DIMM in hash table; on a miss allocate a record, link it at the head of its
chain and count it. Returns the new state and the address of the record. -/
def get_memdimm (x : Ext) (socketid channel dimm : Int) (s : memdb) : memdb × Nat :=
  let h := dimmhash (to_unsigned socketid) dimm (to_unsigned channel)
  match find_memdimm s.heap socketid channel dimm (s.md_dimms h) with
  | some md => (s, md)
  | none =>
    let md := s.heap.length
    ({ s with heap := s.heap ++ [fresh_memdimm x socketid channel dimm],
              md_dimms := fun i => if i = h then md :: s.md_dimms h else s.md_dimms i,
              md_numdimms := s.md_numdimms + 1 }, md)

/-- The registry before any call: no record, empty chains. -/
def memdb_empty (ce uc : bucket_conf) (enabled : Int) : memdb :=
  { heap := [], md_numdimms := 0, md_dimms := fun _ => [],
    ce_bucket_conf := ce, uc_bucket_conf := uc, memdb_enabled := enabled, initialized := 0 }

/-- The key of a record, in the argument order of `get_memdimm`. -/
def key_of (md : memdimm) : Int × Int × Int := (md.socketid, md.channel, md.dimm)

/-- A sequence of `get_memdimm` calls; returns the final state and the address each call
returned, in call order. -/
def get_memdimm_seq (x : Ext) : List (Int × Int × Int) → memdb → memdb × List Nat
  | [], s => (s, [])
  | k :: ks, s =>
    let r := get_memdimm x k.1 k.2.1 k.2.2 s
    let rs := get_memdimm_seq x ks r.1
    (rs.1, r.2 :: rs.2)

/-- The records linked into the `SHASH` chains, in the order in which the collection
loop of `dump_memory_errors` walks them. -/
def stored_records (s : memdb) : List memdimm :=
  (List.range SHASH).flatMap (fun i => (s.md_dimms i).filterMap (fun a => s.heap[a]?))

/-! ## Formatting -/

/-- Conversion `%d` of an `int`. -/
def fmt_d (v : Int) : String := toString v

/-- Conversions `%u` and `%lu` of an unsigned value. -/
def fmt_u (v : Nat) : String := toString v

def NUMLEN : Nat := 30
def MAX_ENV : Nat := 20

/-- The helper `number`: `snprintf(buf, NUMLEN, "%ld", number)`; a `long` has at most 20
characters, so nothing is cut at `NUMLEN`. -/
def number (v : Int) : String := toString v

/-- The location string `"SOCKET:%d CHANNEL:%s DIMM:%s [%s%s%s]"`. -/
def format_location (md : memdimm) : String :=
  "SOCKET:" ++ fmt_d md.socketid ++
  " CHANNEL:" ++ (if md.channel = -1 then "?" else number md.channel) ++
  " DIMM:" ++ (if md.dimm = -1 then "?" else number md.dimm) ++
  " [" ++ (match md.location with | some l => l | none => "") ++
  (if md.location.isSome && md.name.isSome then " " else "") ++
  (match md.name with | some n => n | none => "") ++ "]"

/-! ## Trigger dispatch -/

/-- One `asprintf(&env[ei++], "KEY=%s", value)`: the key and the formatted value. -/
abbrev fact := String × String

/-- The string stored in `env` for a fact. -/
def fact.render (f : fact) : String := f.1 ++ "=" ++ f.2

/-- What one call of `memdb_trigger` does: the two `Gprintf` lines, the `run_trigger`
call (path and `env` strings) if it is reached, whether `assert(ei < MAX_ENV)` failed,
and the strings the call allocated and the ones it freed. -/
structure trigger_result where
  gprintf : List String
  env : List fact
  run : Option (String × List String)
  aborted : Bool
  allocated : List String
  freed : List String
deriving DecidableEq, Repr

/-- The statements of `memdb_trigger` that fill `env` (from `PATH=` to
`THRESHOLD_COUNT=`), in source order; `env.length` is the final `ei`. -/
def trigger_env (x : Ext) (msg : String) (md : memdimm) (t : Nat) (et : err_type)
    (bc : bucket_conf) (location output : String) : List fact :=
  let bucket := et.bucket
  let env : List fact := []
  let env := env ++ [("PATH", match x.getenv_PATH with
    | some p => p
    | none => "/sbin:/usr/sbin:/bin:/usr/bin")]
  let env := env ++ [("THRESHOLD", output)]
  let env := env ++ [("TOTALCOUNT", fmt_u et.count)]
  let env := env ++ [("LOCATION", location)]
  let env := match md.location with
    | some l => env ++ [("DMI_LOCATION", l)]
    | none => env
  let env := match md.name with
    | some n => env ++ [("DMI_NAME", n)]
    | none => env
  let env := if md.dimm ≠ -1 then env ++ [("DIMM", fmt_d md.dimm)] else env
  let env := if md.channel ≠ -1 then env ++ [("CHANNEL", fmt_d md.channel)] else env
  let env := env ++ [("SOCKETID", fmt_d md.socketid)]
  let env := env ++ [("CECOUNT", fmt_u md.ce.count)]
  let env := env ++ [("UCCOUNT", fmt_u md.uc.count)]
  let env := if t ≠ 0 then env ++ [("LASTEVENT", fmt_u t)] else env
  let env := env ++ [("AGETIME", fmt_u bc.agetime)]
  let env := env ++ [("MESSAGE", msg)]
  let env := env ++ [("THRESHOLD_COUNT",
    fmt_d (to_int ((bucket.count + bucket.excess) % 4294967296)))]
  env

/-- Run a user defined trigger when a error threshold is crossed. `t` is the bit
pattern of the `time_t` argument. -/
def memdb_trigger (x : Ext) (msg : String) (md : memdimm) (t : Nat) (et : err_type)
    (bc : bucket_conf) : trigger_result :=
  let location := format_location md
  let output := x.bucket_output bc et.bucket
  let log := [msg ++ ": " ++ output ++ "\n", "Location " ++ location ++ "\n"]
  match bc.trigger with
  | none =>
    { gprintf := log, env := [], run := none, aborted := false,
      allocated := [location, output], freed := [] }
  | some path =>
    let env := trigger_env x msg md t et bc location output
    if env.length < MAX_ENV then
      { gprintf := log, env := env, run := some (path, env.map fact.render), aborted := false,
        allocated := [location, output] ++ env.map fact.render,
        freed := env.map fact.render ++ [location, output] }
    else
      { gprintf := log, env := env, run := none, aborted := true,
        allocated := [location, output] ++ env.map fact.render, freed := [] }

/-! ## Recording an error -/

/-- Which of the two counters of a record (`&md->ce`, `&md->uc`), and which of the two
configurations (`&ce_bucket_conf`, `&uc_bucket_conf`), a pointer argument designates. -/
inductive errclass where
  | ce
  | uc
deriving DecidableEq, Repr

def memdb.conf (s : memdb) : errclass → bucket_conf
  | .ce => s.ce_bucket_conf
  | .uc => s.uc_bucket_conf

def memdimm.et (md : memdimm) : errclass → err_type
  | .ce => md.ce
  | .uc => md.uc

/-- The calls `memory_error` makes, in order. `account` is a call
`__bucket_account(bc, &md->et.bucket, inc, t)` with the bucket it was given and its
result; `trigger` is a call `memdb_trigger(msg, md, t, &md->et, bc)` with what it did. -/
inductive effect where
  | account (bc : errclass) (md : Nat) (et : errclass) (bucket : leaky_bucket)
      (inc : Nat) (t : Nat) (crossed : Bool)
  | trigger (msg : String) (md : Nat) (t : Nat) (et : errclass) (bc : errclass)
      (out : trigger_result)
deriving DecidableEq, Repr

def MCI_STATUS_UC : Nat := 2 ^ 61

/-- Whether a call in the trace failed the assertion of `memdb_trigger`. -/
def effect.aborted : effect → Bool
  | .account _ _ _ _ _ _ _ => false
  | .trigger _ _ _ _ _ out => out.aborted

/-- The block `if (corr_err_cnt && --corr_err_cnt > 0) { ... }` of `memory_error`, run
on the record `md` at address `a`. -/
def lost_step (x : Ext) (s : memdb) (t : Nat) (corr_err_cnt : Nat) (a : Nat) (md : memdimm) :
    memdimm × List effect :=
  if corr_err_cnt ≠ 0 ∧ corr_err_cnt - 1 > 0 then
    let corr_err_cnt := corr_err_cnt - 1
    let md := { md with ce := { md.ce with count := (md.ce.count + corr_err_cnt) % 2 ^ 64 } }
    let r := x.bucket_account s.ce_bucket_conf md.ce.bucket corr_err_cnt t
    let e := effect.account .ce a .ce md.ce.bucket corr_err_cnt t r.1
    let md := { md with ce := { md.ce with bucket := r.2 } }
    if r.1 then
      let msg := "Lost DIMM memory error count " ++ fmt_d (to_int corr_err_cnt) ++
        " exceeded threshold"
      (md, [e, effect.trigger msg a 0 .ce .ce (memdb_trigger x msg md 0 md.ce s.ce_bucket_conf)])
    else (md, [e])
  else (md, [])

/-- The block `if (m->status & MCI_STATUS_UC) { ... } else { ... }` of `memory_error`. -/
def primary_step (x : Ext) (s : memdb) (t : Nat) (m : mce) (a : Nat) (md : memdimm) :
    memdimm × List effect :=
  if m.status &&& MCI_STATUS_UC ≠ 0 then
    let md := { md with uc := { md.uc with count := (md.uc.count + 1) % 2 ^ 64 } }
    let r := x.bucket_account s.uc_bucket_conf md.uc.bucket 1 t
    let e := effect.account .uc a .uc md.uc.bucket 1 t r.1
    let md := { md with uc := { md.uc with bucket := r.2 } }
    if r.1 then
      let msg := "Uncorrected DIMM memory error count exceeded threshold"
      (md, [e, effect.trigger msg a t .uc .uc (memdb_trigger x msg md t md.uc s.uc_bucket_conf)])
    else (md, [e])
  else
    let md := { md with ce := { md.ce with count := (md.ce.count + 1) % 2 ^ 64 } }
    let r := x.bucket_account s.ce_bucket_conf md.ce.bucket 1 t
    let e := effect.account .ce a .ce md.ce.bucket 1 t r.1
    let md := { md with ce := { md.ce with bucket := r.2 } }
    if r.1 then
      let msg := "Corrected DIMM memory error count exceeded threshold"
      (md, [e, effect.trigger msg a t .ce .ce (memdb_trigger x msg md t md.ce s.ce_bucket_conf)])
    else (md, [e])

/-- The event time `m->time ? (time_t)m->time : time(NULL)`; `now` is `time(NULL)`. -/
def event_time (now : Nat) (m : mce) : Nat := if m.time ≠ 0 then m.time else now

/-- A memory error happened, record it in the memdb database and run triggers if needed.
`now` is what `time(NULL)` returns, `corr_err_cnt` an `unsigned`. The result is the new
state and the calls made, or `none` when an assertion stopped the process. -/
def memory_error (x : Ext) (now : Nat) (m : mce) (ch dimm : Int) (corr_err_cnt : Nat)
    (s : memdb) : Option (memdb × List effect) :=
  if s.memdb_enabled = 0 then some (s, [])
  else
    let t := event_time now m
    let r := get_memdimm x (to_int m.socketid) ch dimm s
    let s := r.1
    let a := r.2
    let md := s.heap.getD a memdimm_zero
    let l := lost_step x s t corr_err_cnt a md
    if l.2.any effect.aborted then none
    else
      let p := primary_step x s t m a l.1
      if p.2.any effect.aborted then none
      else some ({ s with heap := s.heap.set a p.1 }, l.2 ++ p.2)

/-! ## Dump -/

/-- Compare two dimms for sorting; the `int` subtractions wrap modulo `2^32`. -/
def cmp_dimm (ma mb : memdimm) : Int :=
  if ma.socketid ≠ mb.socketid then to_int (to_unsigned (ma.socketid - mb.socketid))
  else if ma.channel ≠ mb.channel then to_int (to_unsigned (ma.channel - mb.channel))
  else to_int (to_unsigned (ma.dimm - mb.dimm))

/-- Modelled from the spec: `enum printflags` of `memdb.h`, the flag set
`{IncludeAllRecords, IncludeFirmwareFields}` as bits. -/
def DUMP_ALL : Nat := 1

def DUMP_BIOS : Nat := 2

/-- Dump CE or UC errors: the text written to `f`. -/
def dump_errtype (x : Ext) (name : String) (e : err_type) (flags : Nat) (bc : bucket_conf) :
    String :=
  let all := flags &&& DUMP_ALL
  (if e.count ≠ 0 ∨ e.bucket.count ≠ 0 ∨ all ≠ 0 then name ++ ":\n" else "") ++
  (if e.count ≠ 0 ∨ all ≠ 0 then "\t" ++ fmt_u e.count ++ " total\n" else "") ++
  (if e.bucket.count ≠ 0 ∨ all ≠ 0 then "\t" ++ x.bucket_output bc e.bucket ++ "\n" else "")

/-- The firmware line; `n` counts the characters `fprintf` reports. -/
def dump_bios (md : memdimm) : String :=
  let n := 0
  let out := ""
  let r := match md.name with
    | some name => (n + ("DMI_NAME \"" ++ name ++ "\"").length, out ++ "DMI_NAME \"" ++ name ++ "\"")
    | none => (n, out)
  let r := match md.location with
    | some location =>
      let out := if r.1 > 0 then r.2 ++ " " else r.2
      (r.1 + ("DMI_LOCATION \"" ++ location ++ "\"").length,
        out ++ "DMI_LOCATION \"" ++ location ++ "\"")
    | none => r
  if r.1 > 0 then r.2 ++ "\n" else r.2

/-- The block of one record: the text written to `f`, empty when the record is skipped.
The sum of the two `unsigned long` totals wraps modulo `2^64`. -/
def dump_dimm (x : Ext) (s : memdb) (md : memdimm) (flags : Nat) : String :=
  if (md.ce.count + md.uc.count) % 2 ^ 64 > 0 ∨ flags &&& DUMP_ALL ≠ 0 then
    "SOCKET " ++ fmt_u (to_unsigned md.socketid) ++
    (if md.channel = -1 then " CHANNEL unknown" else " CHANNEL " ++ fmt_d md.channel) ++
    (if md.dimm = -1 then " DIMM unknown" else " DIMM " ++ fmt_d md.dimm) ++
    "\n" ++
    (if flags &&& DUMP_BIOS ≠ 0 then dump_bios md else "") ++
    dump_errtype x "corrected memory errors" md.ce flags s.ce_bucket_conf ++
    dump_errtype x "uncorrected memory errors" md.uc flags s.uc_bucket_conf
  else ""

/-- The C library's `qsort` as a comparison sort that places elements by the sign of
`cmp` alone: insertion of `v` before the first element it does not exceed. -/
def qsort_insert {α : Type} (cmp : α → α → Int) (v : α) : List α → List α
  | [] => [v]
  | y :: ys => if cmp v y ≤ 0 then v :: y :: ys else y :: qsort_insert cmp v ys

/-- The C library's `qsort`: insertion sort by `cmp`. -/
def qsort {α : Type} (cmp : α → α → Int) : List α → List α
  | [] => []
  | v :: vs => qsort_insert cmp v (qsort cmp vs)

/-- The collection loop of `dump_memory_errors`: the addresses on the `SHASH` chains,
bucket by bucket, each chain from its head. -/
def collect_dimms (s : memdb) : List Nat :=
  (List.range SHASH).flatMap s.md_dimms

/-- The output loop of `dump_memory_errors` from index `i` on. -/
def dump_loop (x : Ext) (s : memdb) (flags : Nat) : Nat → List Nat → String
  | _, [] => ""
  | i, a :: da =>
    (if i > 0 then "\n" else "") ++ dump_dimm x s (s.heap.getD a memdimm_zero) flags ++
      dump_loop x s flags (i + 1) da

/-- Sort and dump DIMMs: the text written to `f`. The array `da` has `md_numdimms` slots
and `qsort` and the output loop run over `md_numdimms` entries, so the result is `none`
(a memory error in C) unless the chains hold exactly `md_numdimms` valid addresses. -/
def dump_memory_errors (x : Ext) (flags : Nat) (s : memdb) : Option String :=
  let da := collect_dimms s
  if (da.length : Int) = s.md_numdimms ∧ da.all (fun a => a < s.heap.length) then
    let da := qsort (fun a b => cmp_dimm (s.heap.getD a memdimm_zero) (s.heap.getD b memdimm_zero)) da
    some (dump_loop x s flags 0 da)
  else none

/-- The configuration a call in the trace was made against. -/
def effect.bc : effect → errclass
  | .account bc _ _ _ _ _ _ => bc
  | .trigger _ _ _ _ bc _ => bc

/-- The counter of the record a call in the trace was made against. -/
def effect.et : effect → errclass
  | .account _ _ et _ _ _ _ => et
  | .trigger _ _ _ et _ _ => et

/-- The message of a `memdb_trigger` call in the trace. -/
def effect.msg : effect → Option String
  | .account _ _ _ _ _ _ _ => none
  | .trigger msg _ _ _ _ _ => some msg

/-! ## Observing a registry -/

/-- The record the registry holds for a key, found as `get_memdimm` searches, without
creating one. -/
def dimm_record (s : memdb) (socketid channel dimm : Int) : Option memdimm :=
  match find_memdimm s.heap socketid channel dimm
      (s.md_dimms (dimmhash (to_unsigned socketid) dimm (to_unsigned channel))) with
  | some a => s.heap[a]?
  | none => none

/-- The CE total of a DIMM; a DIMM without a record has seen no error. -/
def ce_total (s : memdb) (socketid channel dimm : Int) : Nat :=
  match dimm_record s socketid channel dimm with
  | some md => md.ce.count
  | none => 0

/-- The UC total of a DIMM; a DIMM without a record has seen no error. -/
def uc_total (s : memdb) (socketid channel dimm : Int) : Nat :=
  match dimm_record s socketid channel dimm with
  | some md => md.uc.count
  | none => 0

/-- The total of one class of a DIMM. -/
def class_total (cls : errclass) (s : memdb) (socketid channel dimm : Int) : Nat :=
  match cls with
  | .ce => ce_total s socketid channel dimm
  | .uc => uc_total s socketid channel dimm

/-- The other class. -/
def errclass.other : errclass → errclass
  | .ce => .uc
  | .uc => .ce

/-- The class of an event: uncorrected iff `MCI_STATUS_UC` is set in its status. -/
def mce.errclass (m : mce) : errclass :=
  if m.status &&& MCI_STATUS_UC ≠ 0 then .uc else .ce

/-- The arguments of one `memory_error` call, and what `time(NULL)` returns during it. -/
structure call where
  now : Nat
  m : mce
  ch : Int
  dimm : Int
  corr_err_cnt : Nat
deriving DecidableEq, Repr

/-- A sequence of `memory_error` calls; `none` when one of them does not return. -/
def memory_error_seq (x : Ext) : List call → memdb → Option memdb
  | [], s => some s
  | c :: cs, s =>
    match memory_error x c.now c.m c.ch c.dimm c.corr_err_cnt s with
    | some r => memory_error_seq x cs r.1
    | none => none

/-! ## Sample collaborators for concrete evaluations -/

/-- A leaky bucket that never ages: it crosses when the count passes the capacity. -/
def sample_ext : Ext :=
  { bucket_init := fun _ => { count := 0, excess := 0, tstamp := 0 },
    bucket_account := fun c b inc t =>
      (decide (b.count + inc > c.capacity), { b with count := b.count + inc, tstamp := t }),
    bucket_output := fun c b => toString b.count ++ " in " ++ toString c.agetime ++ "h",
    getenv_PATH := none }

def sample_conf : bucket_conf :=
  { capacity := 10, agetime := 24, tunit := 0, log := 0, trigger := some "/usr/bin/dimm-trigger" }

/-- An accountant that reports a crossing on every call. -/
def always_ext : Ext :=
  { sample_ext with bucket_account := fun _ b inc t =>
      (true, { b with count := b.count + inc, tstamp := t }) }

/-- A record without errors, for concrete evaluations. -/
def sample_dimm (socketid channel dimm : Int) (location name : Option String) : memdimm :=
  { memdimm_zero with socketid := socketid, channel := channel, dimm := dimm,
                      location := location, name := name }

/-- The state the dump instances use: the DIMM (0,0,0) known without errors, then one
corrected error on the DIMM (0,0,1). -/
def sample_dump_state : Option memdb :=
  memory_error_seq sample_ext
    [{ now := 0, m := { time := 1000, socketid := 0, status := 0 }, ch := 0, dimm := 1,
       corr_err_cnt := 0 }]
    (get_memdimm sample_ext 0 0 0 (memdb_empty sample_conf sample_conf 1)).1

/-! ## Prefill from firmware -/

/-- Modelled from the spec: a firmware memory-device entry (`struct dmi_memdev` of
`dmi.h`) as `prefill_memdb` reads it: the strings `dmi_getstring` returns for its bank
locator and for its device locator, the latter `none` when it returns `NULL`. -/
structure dmi_memdev where
  bank_locator : String
  device_locator : Option String
deriving DecidableEq, Repr

/-- The collaborators of `memdb_config` and `prefill_memdb`: the results of
`config_bool("dimm", "dimm-tracking-enabled")` and `config_bool("dimm", "dmi-prepopulate")`,
the global `memory_error_support`, what `config_trigger` makes of each configuration,
the result of `opendmi()`, the entries of `dmi_dimms`, and the C library's `sscanf` with
the format `"_Node%u_Channel%u_Dimm%u"`: the three `unsigned` values when it returns 3. -/
structure Firmware where
  config_tracking : Int
  memory_error_support : Int
  config_trigger_ce : bucket_conf → bucket_conf
  config_trigger_uc : bucket_conf → bucket_conf
  config_prepopulate : Int
  opendmi : Int
  dmi_dimms : List dmi_memdev
  sscanf_node : String → Option (Nat × Nat × Nat)

/-- The configuration step `memdb_config`. -/
def memdb_config (f : Firmware) (s : memdb) : memdb :=
  let n := f.config_tracking
  let s := if n < 0 then { s with memdb_enabled := f.memory_error_support }
    else { s with memdb_enabled := n }
  let s := { s with ce_bucket_conf := f.config_trigger_ce s.ce_bucket_conf }
  { s with uc_bucket_conf := f.config_trigger_uc s.uc_bucket_conf }

/-- The argument `bl + strcspn(bl, "_")` of `sscanf`: the bank locator from its first
underscore on. -/
def bank_locator_tail (bl : String) : String :=
  String.mk (bl.toList.dropWhile (fun c => c != '_'))

/-- The key an entry parses to, as `get_memdimm` receives it (the `unsigned` values
converted to `int`), or `none` when `sscanf` does not return 3. -/
def entry_key (f : Firmware) (d : dmi_memdev) : Option (Int × Int × Int) :=
  match f.sscanf_node (bank_locator_tail d.bank_locator) with
  | some v => some (to_int v.1, to_int v.2.1, to_int v.2.2)
  | none => none

/-- The body of the loop of `prefill_memdb` for the entry `d = dmi_dimms[i]`; returns
the new state and the new value of `missed`. -/
def prefill_entry (x : Ext) (f : Firmware) (i : Nat) (d : dmi_memdev) (s : memdb)
    (missed : Nat) : memdb × Nat :=
  let bl := d.bank_locator
  match f.sscanf_node (bank_locator_tail bl) with
  | none => (s, missed + 1)
  | some v =>
    let r := get_memdimm x (to_int v.1) (to_int v.2.1) (to_int v.2.2) s
    let md := r.1.heap.getD r.2 memdimm_zero
    if md.memdev ≠ none then (r.1, missed + 1)
    else
      let md := { md with memdev := some i }
      let md := { md with location := some bl }
      let md := { md with name := d.device_locator }
      ({ r.1 with heap := r.1.heap.set r.2 md }, missed)

/-- The loop of `prefill_memdb` from index `i` on. -/
def prefill_loop (x : Ext) (f : Firmware) : Nat → List dmi_memdev → memdb → Nat → memdb × Nat
  | _, [], s, missed => (s, missed)
  | i, d :: ds, s, missed =>
    prefill_loop x f (i + 1) ds (prefill_entry x f i d s missed).1
      (prefill_entry x f i d s missed).2

/-- Prepopulate DIMM database from BIOS information; returns the new state and the
diagnostics written with `Eprintf`. -/
def prefill_memdb (x : Ext) (f : Firmware) (s : memdb) : memdb × List String :=
  if s.initialized ≠ 0 then (s, [])
  else
    let s := memdb_config f s
    if s.memdb_enabled = 0 then (s, [])
    else
      let s := { s with initialized := 1 }
      if f.config_prepopulate = 0 then (s, [])
      else if f.opendmi < 0 then (s, [])
      else
        let r := prefill_loop x f 0 f.dmi_dimms s 0
        (r.1, if r.2 ≠ 0 then ["failed to prefill DIMM database from DMI data"] else [])

/-- Whether the record of a key has a firmware reference attached. -/
def has_memdev (s : memdb) (k : Int × Int × Int) : Bool :=
  match dimm_record s k.1 k.2.1 k.2.2 with
  | some md => md.memdev.isSome
  | none => false

/-- The number of entries the loop counts as missed, given which keys have a firmware
reference: the entries that do not parse, and those whose key has a reference or was
parsed from an earlier entry. -/
def missed_count (attached : Int × Int × Int → Bool) : List (Option (Int × Int × Int)) → Nat
  | [] => 0
  | none :: ks => missed_count attached ks + 1
  | some k :: ks =>
    if attached k then missed_count attached ks + 1
    else missed_count (fun k' => decide (k' = k) || attached k') ks

/-- The first entry of a list that parses to the key `k`, with its position. -/
def first_entry (f : Firmware) (k : Int × Int × Int) : Nat → List dmi_memdev →
    Option (Nat × dmi_memdev)
  | _, [] => none
  | i, d :: ds => if entry_key f d = some k then some (i, d) else first_entry f k (i + 1) ds

/-- A parser for the sample firmware: the digits of a locator `B_Node<s>_Channel<c>_Dimm<d>`
with one-digit fields. -/
def sample_sscanf (t : String) : Option (Nat × Nat × Nat) :=
  match t.toList with
  | ['_', 'N', 'o', 'd', 'e', a, '_', 'C', 'h', 'a', 'n', 'n', 'e', 'l', b, '_', 'D', 'i',
      'm', 'm', c] =>
    if a.isDigit ∧ b.isDigit ∧ c.isDigit then
      some (a.toNat - 48, b.toNat - 48, c.toNat - 48)
    else none
  | _ => none

/-- A firmware inventory with a duplicate and an entry that does not parse. -/
def sample_firmware : Firmware :=
  { config_tracking := 1, memory_error_support := 0,
    config_trigger_ce := fun c => c, config_trigger_uc := fun c => c,
    config_prepopulate := 1, opendmi := 0,
    dmi_dimms := [{ bank_locator := "B_Node0_Channel1_Dimm2", device_locator := some "A1" },
                  { bank_locator := "BANK 7", device_locator := some "A2" },
                  { bank_locator := "B_Node0_Channel1_Dimm2", device_locator := some "A3" },
                  { bank_locator := "B_Node0_Channel1_Dimm3", device_locator := none }],
    sscanf_node := sample_sscanf }

/-- The record of a key as `get_memdimm` would return it: the stored one, or a fresh one
when there is none. -/
def record_or_fresh (x : Ext) (s : memdb) (k : Int × Int × Int) : memdimm :=
  match dimm_record s k.1 k.2.1 k.2.2 with
  | some md => md
  | none => fresh_memdimm x k.1 k.2.1 k.2.2

/-! ## Reachable registries -/

/-- One operation on the registry: a `get_memdimm` call, a `memory_error` call that
returns, or a `prefill_memdb` call. -/
inductive step : memdb → memdb → Prop where
  | get (x : Ext) (so ch di : Int) (s : memdb) : step s (get_memdimm x so ch di s).1
  | error (x : Ext) (now : Nat) (m : mce) (ch dimm : Int) (n : Nat) (s s' : memdb)
      (tr : List effect) (h : memory_error x now m ch dimm n s = some (s', tr)) : step s s'
  | prefill (x : Ext) (f : Firmware) (s : memdb) : step s (prefill_memdb x f s).1

/-- The registries reachable from the empty one by the operations. -/
inductive reachable : memdb → Prop where
  | empty (ce uc : bucket_conf) (en : Int) : reachable (memdb_empty ce uc en)
  | next (s s' : memdb) (hs : reachable s) (h : step s s') : reachable s'

/-- No record is lost from `s` to `s'`: the count does not decrease and every record of
`s` is a record of `s'` at the same address with the same key. -/
def registry_le (s s' : memdb) : Prop :=
  s.md_numdimms ≤ s'.md_numdimms ∧
  ∀ (a : Nat) (md : memdimm), s.heap[a]? = some md →
    ∃ md', s'.heap[a]? = some md' ∧ key_of md' = key_of md

/-- No record has a firmware reference. -/
def no_memdev (s : memdb) : Prop :=
  ∀ (a : Nat) (md : memdimm), s.heap[a]? = some md → md.memdev = none

/-! ## Well-formed registries -/

/-- The bucket of a record. -/
def bucket_of (md : memdimm) : Nat :=
  dimmhash (to_unsigned md.socketid) md.dimm (to_unsigned md.channel)

/-- The representation invariant of the registry. -/
structure WF (s : memdb) : Prop where
  chain_valid : ∀ (h a : Nat), a ∈ s.md_dimms h → ∃ md, s.heap[a]? = some md ∧ bucket_of md = h
  linked : ∀ (a : Nat) (md : memdimm), s.heap[a]? = some md → a ∈ s.md_dimms (bucket_of md)
  keys_inj : ∀ (a b : Nat) (mda mdb : memdimm), s.heap[a]? = some mda → s.heap[b]? = some mdb →
    key_of mda = key_of mdb → a = b
  chain_nodup : ∀ h : Nat, (s.md_dimms h).Nodup
  numdimms : s.md_numdimms = s.heap.length

/-! ## Theorems: the registry -/

theorem key_match_iff (so ch di : Int) (md : memdimm) :
    key_match so ch di md = true ↔ key_of md = (so, ch, di) := by
  simp [key_match, key_of, and_assoc]

theorem find_memdimm_some {heap : List memdimm} {so ch di : Int} {chain : List Nat} {a : Nat}
    (h : find_memdimm heap so ch di chain = some a) :
    a ∈ chain ∧ ∃ md, heap[a]? = some md ∧ key_of md = (so, ch, di) := by
  unfold find_memdimm at h
  refine ⟨List.mem_of_find?_eq_some h, ?_⟩
  have h2 := List.find?_some h
  cases hg : heap[a]? with
  | none => simp [hg] at h2
  | some md =>
    simp only [hg] at h2
    exact ⟨md, rfl, (key_match_iff so ch di md).1 h2⟩

theorem find_memdimm_none {heap : List memdimm} {so ch di : Int} {chain : List Nat}
    (h : find_memdimm heap so ch di chain = none) :
    ∀ a ∈ chain, ∀ md, heap[a]? = some md → key_of md ≠ (so, ch, di) := by
  unfold find_memdimm at h
  intro a ha md hmd hk
  have h2 := List.find?_eq_none.1 h a ha
  simp only [hmd] at h2
  exact h2 ((key_match_iff so ch di md).2 hk)

theorem WF_empty (ce uc : bucket_conf) (en : Int) : WF (memdb_empty ce uc en) := by
  constructor <;> simp [memdb_empty]

theorem get_memdimm_hit {x : Ext} {so ch di : Int} {s : memdb} {a : Nat}
    (h : find_memdimm s.heap so ch di
      (s.md_dimms (dimmhash (to_unsigned so) di (to_unsigned ch))) = some a) :
    get_memdimm x so ch di s = (s, a) := by
  simp [get_memdimm, h]

theorem get_memdimm_miss {x : Ext} {so ch di : Int} {s : memdb}
    (h : find_memdimm s.heap so ch di
      (s.md_dimms (dimmhash (to_unsigned so) di (to_unsigned ch))) = none) :
    get_memdimm x so ch di s =
      ({ s with heap := s.heap ++ [fresh_memdimm x so ch di],
                md_dimms := fun i => if i = dimmhash (to_unsigned so) di (to_unsigned ch)
                  then s.heap.length :: s.md_dimms (dimmhash (to_unsigned so) di (to_unsigned ch))
                  else s.md_dimms i,
                md_numdimms := s.md_numdimms + 1 }, s.heap.length) := by
  simp [get_memdimm, h]

theorem get_memdimm_spec (x : Ext) (so ch di : Int) (s : memdb) (hs : WF s) :
    WF (get_memdimm x so ch di s).1 ∧
    (∃ t, (get_memdimm x so ch di s).1.heap = s.heap ++ t) ∧
    ∃ md, (get_memdimm x so ch di s).1.heap[(get_memdimm x so ch di s).2]? = some md ∧
      key_of md = (so, ch, di) := by
  cases hf : find_memdimm s.heap so ch di
      (s.md_dimms (dimmhash (to_unsigned so) di (to_unsigned ch))) with
  | some a =>
    rw [get_memdimm_hit hf]
    exact ⟨hs, ⟨[], by simp⟩, (find_memdimm_some hf).2⟩
  | none =>
    rw [get_memdimm_miss hf]
    have hnone := find_memdimm_none hf
    have hfresh_key : key_of (fresh_memdimm x so ch di) = (so, ch, di) := rfl
    have hfresh_b : bucket_of (fresh_memdimm x so ch di)
        = dimmhash (to_unsigned so) di (to_unsigned ch) := rfl
    -- no stored record has the key
    have hnokey : ∀ (a : Nat) (md : memdimm), s.heap[a]? = some md → key_of md ≠ (so, ch, di) := by
      intro a md hmd hk
      have hl := hs.linked a md hmd
      have hb : bucket_of md = dimmhash (to_unsigned so) di (to_unsigned ch) := by
        simp only [key_of, Prod.mk.injEq] at hk
        simp [bucket_of, hk.1, hk.2.1, hk.2.2]
      rw [hb] at hl
      exact hnone a hl md hmd hk
    have hget : ∀ (a : Nat) (md : memdimm), (s.heap ++ [fresh_memdimm x so ch di])[a]? = some md →
        (s.heap[a]? = some md ∧ a < s.heap.length) ∨
        (a = s.heap.length ∧ md = fresh_memdimm x so ch di) := by
      intro a md hmd
      rcases Nat.lt_trichotomy a s.heap.length with hlt | heq | hgt
      · left
        rw [List.getElem?_append_left hlt] at hmd
        exact ⟨hmd, hlt⟩
      · right
        subst heq
        simp at hmd
        exact ⟨rfl, hmd.symm⟩
      · exfalso
        have : (s.heap ++ [fresh_memdimm x so ch di])[a]? = none := by
          apply List.getElem?_eq_none
          simp
          omega
        rw [this] at hmd
        cases hmd
    refine ⟨?_, ⟨[fresh_memdimm x so ch di], rfl⟩, ⟨fresh_memdimm x so ch di, by simp, hfresh_key⟩⟩
    constructor
    · intro h a ha
      simp only at ha
      by_cases hh : h = dimmhash (to_unsigned so) di (to_unsigned ch)
      · simp only [hh, if_true, List.mem_cons] at ha
        rcases ha with ha | ha
        · subst ha
          exact ⟨fresh_memdimm x so ch di, by simp, by rw [hfresh_b, hh]⟩
        · obtain ⟨md, hmd, hb⟩ := hs.chain_valid _ a ha
          have hlt : a < s.heap.length := by
            by_contra hc
            rw [List.getElem?_eq_none (by omega)] at hmd
            cases hmd
          exact ⟨md, by simp only; rw [List.getElem?_append_left hlt]; exact hmd, by rw [hb, hh]⟩
      · simp only [hh, if_false] at ha
        obtain ⟨md, hmd, hb⟩ := hs.chain_valid _ a ha
        have hlt : a < s.heap.length := by
          by_contra hc
          rw [List.getElem?_eq_none (by omega)] at hmd
          cases hmd
        exact ⟨md, by simp only; rw [List.getElem?_append_left hlt]; exact hmd, hb⟩
    · intro a md hmd
      simp only at hmd ⊢
      rcases hget a md hmd with ⟨h1, _⟩ | ⟨h1, h2⟩
      · have := hs.linked a md h1
        by_cases hh : bucket_of md = dimmhash (to_unsigned so) di (to_unsigned ch)
        · simp only [hh, if_true, List.mem_cons]
          right
          rw [← hh]
          exact this
        · simp only [hh, if_false]
          exact this
      · subst h1 h2
        simp [hfresh_b]
    · intro a b mda mdb ha hb hk
      simp only at ha hb
      rcases hget a mda ha with ⟨h1, _⟩ | ⟨h1, h2⟩ <;> rcases hget b mdb hb with ⟨h3, _⟩ | ⟨h3, h4⟩
      · exact hs.keys_inj a b mda mdb h1 h3 hk
      · subst h4
        exact absurd (hk.trans hfresh_key) (hnokey a mda h1)
      · subst h2
        exact absurd (hk.symm.trans hfresh_key) (hnokey b mdb h3)
      · rw [h1, h3]
    · intro h
      simp only
      by_cases hh : h = dimmhash (to_unsigned so) di (to_unsigned ch)
      · simp only [hh, if_true, List.nodup_cons]
        refine ⟨?_, hs.chain_nodup _⟩
        intro hmem
        obtain ⟨md, hmd, _⟩ := hs.chain_valid _ _ hmem
        rw [List.getElem?_eq_none (le_refl _)] at hmd
        cases hmd
      · simp only [hh, if_false]
        exact hs.chain_nodup _
    · simp [hs.numdimms]

theorem get_memdimm_seq_spec (x : Ext) (ks : List (Int × Int × Int)) :
    ∀ s : memdb, WF s →
    WF (get_memdimm_seq x ks s).1 ∧
    (∃ t, (get_memdimm_seq x ks s).1.heap = s.heap ++ t) ∧
    (get_memdimm_seq x ks s).2.length = ks.length ∧
    ∀ (i : Nat) (k : Int × Int × Int), ks[i]? = some k →
      ∃ a md, (get_memdimm_seq x ks s).2[i]? = some a ∧
        (get_memdimm_seq x ks s).1.heap[a]? = some md ∧ key_of md = k := by
  induction ks with
  | nil =>
    intro s hs
    exact ⟨hs, ⟨[], by simp [get_memdimm_seq]⟩, rfl, by simp⟩
  | cons k ks ih =>
    intro s hs
    obtain ⟨hwf1, ⟨t1, ht1⟩, md1, hmd1, hk1⟩ := get_memdimm_spec x k.1 k.2.1 k.2.2 s hs
    obtain ⟨hwf2, ⟨t2, ht2⟩, hlen, hall⟩ := ih (get_memdimm x k.1 k.2.1 k.2.2 s).1 hwf1
    simp only [get_memdimm_seq]
    refine ⟨hwf2, ⟨t1 ++ t2, by rw [ht2, ht1, List.append_assoc]⟩, by simp [hlen], ?_⟩
    intro i k' hi
    cases i with
    | zero =>
      simp only [List.getElem?_cons_zero, Option.some.injEq] at hi
      subst hi
      refine ⟨(get_memdimm x k.1 k.2.1 k.2.2 s).2, md1, by simp, ?_, hk1⟩
      rw [ht2]
      have hlt : (get_memdimm x k.1 k.2.1 k.2.2 s).2 < (get_memdimm x k.1 k.2.1 k.2.2 s).1.heap.length := by
        by_contra hc
        rw [List.getElem?_eq_none (by omega)] at hmd1
        cases hmd1
      rw [List.getElem?_append_left hlt]
      exact hmd1
    | succ i =>
      simp only [List.getElem?_cons_succ] at hi
      obtain ⟨a, md, h1, h2, h3⟩ := hall i k' hi
      exact ⟨a, md, by simpa using h1, h2, h3⟩

theorem stored_keys_nodup (s : memdb) (hs : WF s) : ((stored_records s).map key_of).Nodup := by
  unfold stored_records
  rw [List.map_flatMap, List.nodup_flatMap]
  constructor
  · intro i _
    rw [List.map_filterMap]
    refine List.Nodup.filterMap ?_ (hs.chain_nodup i)
    intro a a' b hb hb'
    simp only [Option.mem_def, Option.map_eq_some'] at hb hb'
    obtain ⟨md, hmd, hk⟩ := hb
    obtain ⟨md', hmd', hk'⟩ := hb'
    exact hs.keys_inj a a' md md' hmd hmd' (hk.trans hk'.symm)
  · refine List.Nodup.pairwise_of_forall_ne (List.nodup_range SHASH) ?_
    intro i _ j _ hij
    simp only [Function.onFun]
    rw [List.disjoint_left]
    intro k hk hk'
    simp only [List.mem_map, List.mem_filterMap] at hk hk'
    obtain ⟨md, ⟨a, ha, hmd⟩, hkey⟩ := hk
    obtain ⟨md', ⟨a', ha', hmd'⟩, hkey'⟩ := hk'
    have haa := hs.keys_inj a a' md md' hmd hmd' (hkey.trans hkey'.symm)
    subst haa
    rw [hmd] at hmd'
    cases hmd'
    obtain ⟨m1, hm1, hb1⟩ := hs.chain_valid i a ha
    obtain ⟨m2, hm2, hb2⟩ := hs.chain_valid j a ha'
    rw [hm1] at hm2
    cases hm2
    exact hij (hb1.symm.trans hb2)

/-- C1: in any sequence of `get_memdimm` calls from the empty registry, two calls return
the same record exactly when their keys are equal (so a call returns the record its
key's first call created, and calls with different keys never alias, whatever their
buckets), the record returned carries the key asked for, and no two stored records
have equal keys. -/
theorem get_memdimm_identity (x : Ext) (ce uc : bucket_conf) (en : Int)
    (ks : List (Int × Int × Int)) :
    (get_memdimm_seq x ks (memdb_empty ce uc en)).2.length = ks.length ∧
    (∀ i j : Nat, i < ks.length → j < ks.length →
      ((get_memdimm_seq x ks (memdb_empty ce uc en)).2[i]? =
        (get_memdimm_seq x ks (memdb_empty ce uc en)).2[j]? ↔ ks[i]? = ks[j]?)) ∧
    (∀ (i : Nat) (k : Int × Int × Int), ks[i]? = some k →
      ∃ a md, (get_memdimm_seq x ks (memdb_empty ce uc en)).2[i]? = some a ∧
        (get_memdimm_seq x ks (memdb_empty ce uc en)).1.heap[a]? = some md ∧ key_of md = k) ∧
    ((stored_records (get_memdimm_seq x ks (memdb_empty ce uc en)).1).map key_of).Nodup := by
  obtain ⟨hwf, _, hlen, hall⟩ := get_memdimm_seq_spec x ks (memdb_empty ce uc en) (WF_empty ce uc en)
  refine ⟨hlen, ?_, hall, stored_keys_nodup _ hwf⟩
  intro i j hi hj
  obtain ⟨a, md, ha, hmd, hk⟩ := hall i ks[i] (List.getElem?_eq_getElem hi)
  obtain ⟨b, md', hb, hmd', hk'⟩ := hall j ks[j] (List.getElem?_eq_getElem hj)
  rw [ha, hb, List.getElem?_eq_getElem hi, List.getElem?_eq_getElem hj]
  simp only [Option.some.injEq]
  constructor
  · intro hab
    subst hab
    rw [hmd] at hmd'
    cases hmd'
    exact hk.symm.trans hk'
  · intro hkk
    exact hwf.keys_inj a b md md' hmd hmd' (hk.trans (hkk.trans hk'.symm))

/-- C1 at an instance: the keys (0,-1,-1) and (0,0,0) get different records, so do
(0,0,2) and (0,0,8), which fall into the same bucket, and the second call for (0,-1,-1)
returns the record of the first. -/
theorem get_memdimm_identity_witness :
    dimmhash (to_unsigned 0) 2 (to_unsigned 0) = dimmhash (to_unsigned 0) 8 (to_unsigned 0) ∧
    (get_memdimm_seq sample_ext [(0, -1, -1), (0, 0, 0), (0, 0, 2), (0, 0, 8), (0, -1, -1)]
      (memdb_empty sample_conf sample_conf 1)).2 = [0, 1, 2, 3, 0] ∧
    ((get_memdimm_seq sample_ext [(0, -1, -1), (0, 0, 0), (0, 0, 2), (0, 0, 8), (0, -1, -1)]
        (memdb_empty sample_conf sample_conf 1)).2[0]? =
      (get_memdimm_seq sample_ext [(0, -1, -1), (0, 0, 0), (0, 0, 2), (0, 0, 8), (0, -1, -1)]
        (memdb_empty sample_conf sample_conf 1)).2[4]? ↔
      [((0 : Int), ((-1 : Int), (-1 : Int))), (0, 0, 0), (0, 0, 2), (0, 0, 8), (0, -1, -1)][0]? =
        [((0 : Int), ((-1 : Int), (-1 : Int))), (0, 0, 0), (0, 0, 2), (0, 0, 8), (0, -1, -1)][4]?) :=
  ⟨by decide, by decide,
    (get_memdimm_identity sample_ext sample_conf sample_conf 1
      [(0, -1, -1), (0, 0, 0), (0, 0, 2), (0, 0, 8), (0, -1, -1)]).2.1 0 4
      (by decide) (by decide)⟩

/-! ## Theorems: recording an error -/

theorem trigger_env_length (x : Ext) (msg : String) (md : memdimm) (t : Nat) (et : err_type)
    (bc : bucket_conf) (location output : String) :
    10 ≤ (trigger_env x msg md t et bc location output).length ∧
    (trigger_env x msg md t et bc location output).length ≤ 15 := by
  unfold trigger_env
  cases md.location <;> cases md.name <;> by_cases hd : md.dimm = -1 <;>
    by_cases hc : md.channel = -1 <;> by_cases ht : t = 0 <;> simp [hd, hc, ht]

theorem memdb_trigger_aborted (x : Ext) (msg : String) (md : memdimm) (t : Nat) (et : err_type)
    (bc : bucket_conf) : (memdb_trigger x msg md t et bc).aborted = false := by
  unfold memdb_trigger
  cases bc.trigger with
  | none => rfl
  | some path =>
    have h := (trigger_env_length x msg md t et bc (format_location md)
      (x.bucket_output bc et.bucket)).2
    have h2 : (trigger_env x msg md t et bc (format_location md)
      (x.bucket_output bc et.bucket)).length < MAX_ENV := by
      unfold MAX_ENV
      omega
    simp [h2]

theorem lost_step_aborted (x : Ext) (s : memdb) (t n a : Nat) (md : memdimm) :
    (lost_step x s t n a md).2.any effect.aborted = false := by
  dsimp only [lost_step]
  split_ifs <;> simp [effect.aborted, memdb_trigger_aborted]

theorem primary_step_aborted (x : Ext) (s : memdb) (t : Nat) (m : mce) (a : Nat) (md : memdimm) :
    (primary_step x s t m a md).2.any effect.aborted = false := by
  dsimp only [primary_step]
  split_ifs <;> simp [effect.aborted, memdb_trigger_aborted]

/-- With tracking enabled `memory_error` runs to its end: it resolves the record, runs
the two blocks on it and stores it back. -/
theorem memory_error_enabled (x : Ext) (now : Nat) (m : mce) (ch dimm : Int) (n : Nat)
    (s : memdb) (hen : s.memdb_enabled ≠ 0) :
    memory_error x now m ch dimm n s =
      some ({ (get_memdimm x (to_int m.socketid) ch dimm s).1 with
          heap := (get_memdimm x (to_int m.socketid) ch dimm s).1.heap.set
            (get_memdimm x (to_int m.socketid) ch dimm s).2
            (primary_step x (get_memdimm x (to_int m.socketid) ch dimm s).1 (event_time now m) m
              (get_memdimm x (to_int m.socketid) ch dimm s).2
              (lost_step x (get_memdimm x (to_int m.socketid) ch dimm s).1 (event_time now m) n
                (get_memdimm x (to_int m.socketid) ch dimm s).2
                ((get_memdimm x (to_int m.socketid) ch dimm s).1.heap.getD
                  (get_memdimm x (to_int m.socketid) ch dimm s).2 memdimm_zero)).1).1 },
        (lost_step x (get_memdimm x (to_int m.socketid) ch dimm s).1 (event_time now m) n
            (get_memdimm x (to_int m.socketid) ch dimm s).2
            ((get_memdimm x (to_int m.socketid) ch dimm s).1.heap.getD
              (get_memdimm x (to_int m.socketid) ch dimm s).2 memdimm_zero)).2 ++
        (primary_step x (get_memdimm x (to_int m.socketid) ch dimm s).1 (event_time now m) m
            (get_memdimm x (to_int m.socketid) ch dimm s).2
            (lost_step x (get_memdimm x (to_int m.socketid) ch dimm s).1 (event_time now m) n
              (get_memdimm x (to_int m.socketid) ch dimm s).2
              ((get_memdimm x (to_int m.socketid) ch dimm s).1.heap.getD
                (get_memdimm x (to_int m.socketid) ch dimm s).2 memdimm_zero)).1).2) := by
  unfold memory_error
  simp only [hen, if_false, lost_step_aborted, primary_step_aborted, Bool.false_eq_true]

theorem find_memdimm_set (heap : List memdimm) (so ch di : Int) (chain : List Nat) (a : Nat)
    (md md' : memdimm) (ha : heap[a]? = some md) (hk : key_of md' = key_of md) :
    find_memdimm (heap.set a md') so ch di chain = find_memdimm heap so ch di chain := by
  unfold find_memdimm
  congr 1
  funext b
  by_cases hab : a = b
  · subst hab
    have hlt : a < heap.length := by
      by_contra hc
      rw [List.getElem?_eq_none (by omega)] at ha
      cases ha
    rw [List.getElem?_set_self hlt, ha]
    simp only
    have h1 := key_match_iff so ch di md
    have h2 := key_match_iff so ch di md'
    rw [hk] at h2
    exact Bool.eq_iff_iff.2 (h2.trans h1.symm)
  · rw [List.getElem?_set_ne hab]

/-- What `get_memdimm` returns is the record of the key in the state it leaves: the
record that was there, or a fresh one. -/
theorem get_memdimm_record (x : Ext) (so ch di : Int) (s : memdb) :
    find_memdimm (get_memdimm x so ch di s).1.heap so ch di
      ((get_memdimm x so ch di s).1.md_dimms (dimmhash (to_unsigned so) di (to_unsigned ch)))
      = some (get_memdimm x so ch di s).2 ∧
    ∃ md, (get_memdimm x so ch di s).1.heap[(get_memdimm x so ch di s).2]? = some md ∧
      key_of md = (so, ch, di) ∧
      (dimm_record s so ch di = some md ∨
        (dimm_record s so ch di = none ∧ md = fresh_memdimm x so ch di)) := by
  cases hf : find_memdimm s.heap so ch di
      (s.md_dimms (dimmhash (to_unsigned so) di (to_unsigned ch))) with
  | some a =>
    rw [get_memdimm_hit hf]
    obtain ⟨_, md, hmd, hk⟩ := find_memdimm_some hf
    exact ⟨hf, md, hmd, hk, Or.inl (by simp [dimm_record, hf, hmd])⟩
  | none =>
    rw [get_memdimm_miss hf]
    refine ⟨?_, fresh_memdimm x so ch di, by simp, rfl, Or.inr ⟨by simp [dimm_record, hf], rfl⟩⟩
    have hk : key_match so ch di (fresh_memdimm x so ch di) = true :=
      (key_match_iff so ch di _).2 rfl
    simp [find_memdimm, hk]

theorem lost_step_fields (x : Ext) (s : memdb) (t n a : Nat) (md : memdimm) :
    key_of (lost_step x s t n a md).1 = key_of md ∧
    (lost_step x s t n a md).1.uc = md.uc ∧
    (lost_step x s t n a md).1.name = md.name ∧
    (lost_step x s t n a md).1.location = md.location ∧
    (lost_step x s t n a md).1.memdev = md.memdev ∧
    (lost_step x s t n a md).1.ce.count =
      if n ≠ 0 ∧ n - 1 > 0 then (md.ce.count + (n - 1)) % 2 ^ 64 else md.ce.count := by
  dsimp only [lost_step]
  split_ifs <;> simp [key_of]

theorem primary_step_fields (x : Ext) (s : memdb) (t : Nat) (m : mce) (a : Nat) (md : memdimm) :
    key_of (primary_step x s t m a md).1 = key_of md ∧
    (primary_step x s t m a md).1.name = md.name ∧
    (primary_step x s t m a md).1.location = md.location ∧
    (primary_step x s t m a md).1.memdev = md.memdev ∧
    (primary_step x s t m a md).1.ce.count =
      (if m.status &&& MCI_STATUS_UC ≠ 0 then md.ce.count else (md.ce.count + 1) % 2 ^ 64) ∧
    (primary_step x s t m a md).1.uc.count =
      (if m.status &&& MCI_STATUS_UC ≠ 0 then (md.uc.count + 1) % 2 ^ 64 else md.uc.count) := by
  dsimp only [primary_step]
  split_ifs <;> simp [key_of]

theorem get_memdimm_conf (x : Ext) (so ch di : Int) (s : memdb) :
    (get_memdimm x so ch di s).1.ce_bucket_conf = s.ce_bucket_conf ∧
    (get_memdimm x so ch di s).1.uc_bucket_conf = s.uc_bucket_conf ∧
    (get_memdimm x so ch di s).1.memdb_enabled = s.memdb_enabled ∧
    (get_memdimm x so ch di s).1.initialized = s.initialized := by
  unfold get_memdimm
  dsimp only
  split <;> simp

theorem lost_step_conf (x : Ext) (s s1 : memdb) (t n a : Nat) (md : memdimm)
    (h : s1.ce_bucket_conf = s.ce_bucket_conf) :
    lost_step x s1 t n a md = lost_step x s t n a md := by
  simp only [lost_step, h]

theorem primary_step_conf (x : Ext) (s s1 : memdb) (t : Nat) (m : mce) (a : Nat) (md : memdimm)
    (h : s1.ce_bucket_conf = s.ce_bucket_conf) (h2 : s1.uc_bucket_conf = s.uc_bucket_conf) :
    primary_step x s1 t m a md = primary_step x s t m a md := by
  simp only [primary_step, h, h2]

/-- With tracking enabled, `memory_error` returns: its calls are those of the two blocks
run on the record of the event's key as it was before (a fresh one if there was none),
and the record of the key afterwards is the result of the two blocks. -/
theorem memory_error_record (x : Ext) (now : Nat) (m : mce) (ch dimm : Int) (n : Nat)
    (s : memdb) (hen : s.memdb_enabled ≠ 0) :
    ∃ s' md0 a,
      memory_error x now m ch dimm n s = some (s',
        (lost_step x s (event_time now m) n a md0).2 ++
        (primary_step x s (event_time now m) m a
          (lost_step x s (event_time now m) n a md0).1).2) ∧
      (dimm_record s (to_int m.socketid) ch dimm = some md0 ∨
        (dimm_record s (to_int m.socketid) ch dimm = none ∧
          md0 = fresh_memdimm x (to_int m.socketid) ch dimm)) ∧
      dimm_record s' (to_int m.socketid) ch dimm =
        some (primary_step x s (event_time now m) m a
          (lost_step x s (event_time now m) n a md0).1).1 := by
  obtain ⟨hfind, md0, hmd0, hk0, hrec⟩ := get_memdimm_record x (to_int m.socketid) ch dimm s
  obtain ⟨hc1, hc2, _, _⟩ := get_memdimm_conf x (to_int m.socketid) ch dimm s
  have hgetD : (get_memdimm x (to_int m.socketid) ch dimm s).1.heap.getD
      (get_memdimm x (to_int m.socketid) ch dimm s).2 memdimm_zero = md0 := by
    rw [List.getD_eq_getElem?_getD, hmd0]
    rfl
  have hme := memory_error_enabled x now m ch dimm n s hen
  rw [hgetD] at hme
  simp only [lost_step_conf x s _ _ _ _ _ hc1, primary_step_conf x s _ _ _ _ _ hc1 hc2] at hme
  refine ⟨_, md0, (get_memdimm x (to_int m.socketid) ch dimm s).2, hme, hrec, ?_⟩
  have hlt : (get_memdimm x (to_int m.socketid) ch dimm s).2 <
      (get_memdimm x (to_int m.socketid) ch dimm s).1.heap.length := by
    by_contra hc
    rw [List.getElem?_eq_none (by omega)] at hmd0
    cases hmd0
  have hkey := ((primary_step_fields x s (event_time now m) m
      (get_memdimm x (to_int m.socketid) ch dimm s).2
      (lost_step x s (event_time now m) n
        (get_memdimm x (to_int m.socketid) ch dimm s).2 md0).1).1).trans
    (lost_step_fields x s (event_time now m) n
      (get_memdimm x (to_int m.socketid) ch dimm s).2 md0).1
  unfold dimm_record
  simp only
  rw [find_memdimm_set _ _ _ _ _ _ md0 _ hmd0 hkey, hfind]
  simp only
  rw [List.getElem?_set_self hlt]

theorem record_totals (x : Ext) (s : memdb) (so ch di : Int) (md0 : memdimm)
    (h : dimm_record s so ch di = some md0 ∨
      (dimm_record s so ch di = none ∧ md0 = fresh_memdimm x so ch di)) :
    md0.ce.count = ce_total s so ch di ∧ md0.uc.count = uc_total s so ch di := by
  rcases h with h | ⟨h, h2⟩
  · simp [ce_total, uc_total, h]
  · subst h2
    simp [ce_total, uc_total, h, fresh_memdimm, memdimm_zero]

/-- C2: with tracking enabled, one `memory_error` call for a corrected event with
`corr_err_cnt = n >= 1` returns, raises the CE total of the DIMM by `n` modulo `2^64`
and leaves its UC total as it was. -/
theorem memory_error_corrected_totals (x : Ext) (now : Nat) (m : mce) (ch dimm : Int) (n : Nat)
    (s : memdb) (hen : s.memdb_enabled ≠ 0) (hce : m.status &&& MCI_STATUS_UC = 0)
    (hn : 1 ≤ n) :
    ∃ s' tr, memory_error x now m ch dimm n s = some (s', tr) ∧
      ce_total s' (to_int m.socketid) ch dimm =
        (ce_total s (to_int m.socketid) ch dimm + n) % 2 ^ 64 ∧
      uc_total s' (to_int m.socketid) ch dimm = uc_total s (to_int m.socketid) ch dimm := by
  obtain ⟨s', md0, a, hme, hrec, hrec'⟩ := memory_error_record x now m ch dimm n s hen
  obtain ⟨hce0, huc0⟩ := record_totals x s _ _ _ md0 hrec
  obtain ⟨_, _, _, _, hpce, hpuc⟩ := primary_step_fields x s (event_time now m) m a
    (lost_step x s (event_time now m) n a md0).1
  obtain ⟨_, hluc, _, _, _, hlce⟩ := lost_step_fields x s (event_time now m) n a md0
  refine ⟨s', _, hme, ?_, ?_⟩
  · rw [← hce0]
    simp only [ce_total, hrec', hpce, hce, ne_eq, not_true_eq_false, if_false, hlce]
    split_ifs with h
    · norm_num
      omega
    · have h1 : n = 1 := by omega
      subst h1
      rfl
  · rw [← huc0]
    simp only [uc_total, hrec', hpuc, hce, ne_eq, not_true_eq_false, if_false, hluc]

/-- C2 at the spec's instance: a corrected event with lost count 5, on a DIMM the empty
registry has no record of (CE total 0). -/
theorem memory_error_corrected_totals_witness :
    (∃ s' tr, memory_error sample_ext 0 { time := 1000, socketid := 0, status := 0 } 1 2 5
        (memdb_empty sample_conf sample_conf 1) = some (s', tr) ∧
      ce_total s' (to_int 0) 1 2 =
        (ce_total (memdb_empty sample_conf sample_conf 1) (to_int 0) 1 2 + 5) % 2 ^ 64 ∧
      uc_total s' (to_int 0) 1 2 =
        uc_total (memdb_empty sample_conf sample_conf 1) (to_int 0) 1 2) ∧
    ce_total (memdb_empty sample_conf sample_conf 1) (to_int 0) 1 2 = 0 :=
  ⟨memory_error_corrected_totals sample_ext 0 { time := 1000, socketid := 0, status := 0 } 1 2 5
    (memdb_empty sample_conf sample_conf 1) (by decide) (by decide) (by decide), by decide⟩

theorem lost_step_trace (x : Ext) (s : memdb) (t n a : Nat) (md : memdimm) :
    (∀ e ∈ (lost_step x s t n a md).2, e.bc = errclass.ce ∧ e.et = errclass.ce) ∧
    (¬ 2 ≤ n → (lost_step x s t n a md).2 = []) ∧
    (2 ≤ n → (lost_step x s t n a md).2.head? = some (effect.account .ce a .ce md.ce.bucket
      (n - 1) t (x.bucket_account s.ce_bucket_conf md.ce.bucket (n - 1) t).1)) := by
  dsimp only [lost_step]
  split_ifs with h1 h2
  · refine ⟨by simp [effect.bc, effect.et], fun h => by omega, fun _ => by simp⟩
  · refine ⟨by simp [effect.bc, effect.et], fun h => by omega, fun _ => by simp⟩
  · refine ⟨by simp, fun _ => rfl, fun h => by omega⟩

theorem primary_step_trace_uc (x : Ext) (s : memdb) (t : Nat) (m : mce) (a : Nat) (md : memdimm)
    (huc : m.status &&& MCI_STATUS_UC ≠ 0) :
    (∀ e ∈ (primary_step x s t m a md).2, e.bc = errclass.uc ∧ e.et = errclass.uc) ∧
    (primary_step x s t m a md).2.head? = some (effect.account .uc a .uc md.uc.bucket
      1 t (x.bucket_account s.uc_bucket_conf md.uc.bucket 1 t).1) := by
  dsimp only [primary_step]
  rw [if_pos huc]
  split_ifs <;> simp [effect.bc, effect.et]

/-- C3: with tracking enabled, one `memory_error` call for an uncorrected event with
`corr_err_cnt = n >= 1` returns, raises the CE total of the DIMM by `n - 1` and its UC
total by 1 (modulo `2^64`, the CE total being an `unsigned long`); its calls split into those for the lost events, all made
against the CE counter and the CE configuration and led, when `n >= 2`, by the
accounting of `n - 1` on the CE bucket, and those for the event itself, all made against
the UC counter and configuration. -/
theorem memory_error_uncorrected_totals (x : Ext) (now : Nat) (m : mce) (ch dimm : Int)
    (n : Nat) (s : memdb) (hen : s.memdb_enabled ≠ 0)
    (huc : m.status &&& MCI_STATUS_UC ≠ 0) (hn : 1 ≤ n)
    (hty : ce_total s (to_int m.socketid) ch dimm < 2 ^ 64) :
    ∃ s' md0 a lost prim, memory_error x now m ch dimm n s = some (s', lost ++ prim) ∧
      (dimm_record s (to_int m.socketid) ch dimm = some md0 ∨
        (dimm_record s (to_int m.socketid) ch dimm = none ∧
          md0 = fresh_memdimm x (to_int m.socketid) ch dimm)) ∧
      ce_total s' (to_int m.socketid) ch dimm =
        (ce_total s (to_int m.socketid) ch dimm + (n - 1)) % 2 ^ 64 ∧
      uc_total s' (to_int m.socketid) ch dimm =
        (uc_total s (to_int m.socketid) ch dimm + 1) % 2 ^ 64 ∧
      (∀ e ∈ lost, e.bc = errclass.ce ∧ e.et = errclass.ce) ∧
      (n = 1 → lost = []) ∧
      (2 ≤ n → lost.head? = some (effect.account .ce a .ce md0.ce.bucket (n - 1)
        (event_time now m)
        (x.bucket_account s.ce_bucket_conf md0.ce.bucket (n - 1) (event_time now m)).1)) ∧
      (∀ e ∈ prim, e.bc = errclass.uc ∧ e.et = errclass.uc) := by
  obtain ⟨s', md0, a, hme, hrec, hrec'⟩ := memory_error_record x now m ch dimm n s hen
  obtain ⟨hce0, huc0⟩ := record_totals x s _ _ _ md0 hrec
  obtain ⟨_, _, _, _, hpce, hpuc⟩ := primary_step_fields x s (event_time now m) m a
    (lost_step x s (event_time now m) n a md0).1
  obtain ⟨_, hluc, _, _, _, hlce⟩ := lost_step_fields x s (event_time now m) n a md0
  obtain ⟨hl1, hl2, hl3⟩ := lost_step_trace x s (event_time now m) n a md0
  obtain ⟨hp1, _⟩ := primary_step_trace_uc x s (event_time now m) m a
    (lost_step x s (event_time now m) n a md0).1 huc
  refine ⟨s', md0, a, _, _, hme, hrec, ?_, ?_, hl1, fun h => hl2 (by omega), hl3, hp1⟩
  · rw [← hce0]
    simp only [ce_total, hrec', hpce, huc, ne_eq, not_false_eq_true, if_true, hlce]
    split_ifs with h
    · norm_num
    · have h1 : n = 1 := by omega
      subst h1
      rw [← hce0] at hty
      norm_num at hty ⊢
      omega
  · rw [← huc0]
    simp only [uc_total, hrec', hpuc, huc, ne_eq, not_false_eq_true, if_true, hluc]

/-- C3 at an instance: an uncorrected event with lost count 5 on a DIMM not yet seen. -/
theorem memory_error_uncorrected_totals_witness :
    ∃ s' md0 a lost prim,
      memory_error sample_ext 0 { time := 1000, socketid := 0, status := 2 ^ 61 } 1 2 5
        (memdb_empty sample_conf sample_conf 1) = some (s', lost ++ prim) ∧
      (dimm_record (memdb_empty sample_conf sample_conf 1) (to_int 0) 1 2 = some md0 ∨
        (dimm_record (memdb_empty sample_conf sample_conf 1) (to_int 0) 1 2 = none ∧
          md0 = fresh_memdimm sample_ext (to_int 0) 1 2)) ∧
      ce_total s' (to_int 0) 1 2 =
        (ce_total (memdb_empty sample_conf sample_conf 1) (to_int 0) 1 2 + (5 - 1)) % 2 ^ 64 ∧
      uc_total s' (to_int 0) 1 2 =
        (uc_total (memdb_empty sample_conf sample_conf 1) (to_int 0) 1 2 + 1) % 2 ^ 64 ∧
      (∀ e ∈ lost, e.bc = errclass.ce ∧ e.et = errclass.ce) ∧
      (5 = 1 → lost = []) ∧
      (2 ≤ 5 → lost.head? = some (effect.account .ce a .ce md0.ce.bucket (5 - 1)
        (event_time 0 { time := 1000, socketid := 0, status := 2 ^ 61 })
        (sample_ext.bucket_account (memdb_empty sample_conf sample_conf 1).ce_bucket_conf
          md0.ce.bucket (5 - 1)
          (event_time 0 { time := 1000, socketid := 0, status := 2 ^ 61 })).1)) ∧
      (∀ e ∈ prim, e.bc = errclass.uc ∧ e.et = errclass.uc) :=
  memory_error_uncorrected_totals sample_ext 0 { time := 1000, socketid := 0, status := 2 ^ 61 }
    1 2 5 (memdb_empty sample_conf sample_conf 1) (by decide) (by decide) (by decide) (by decide)

theorem memory_error_conf (x : Ext) (now : Nat) (m : mce) (ch dimm : Int) (n : Nat)
    (s s' : memdb) (tr : List effect) (h : memory_error x now m ch dimm n s = some (s', tr)) :
    s'.memdb_enabled = s.memdb_enabled ∧ s'.ce_bucket_conf = s.ce_bucket_conf ∧
    s'.uc_bucket_conf = s.uc_bucket_conf ∧ s'.initialized = s.initialized := by
  by_cases hen : s.memdb_enabled = 0
  · simp only [memory_error, hen, if_true, Option.some.injEq, Prod.mk.injEq] at h
    rw [← h.1]
    simp [hen]
  · rw [memory_error_enabled x now m ch dimm n s hen] at h
    simp only [Option.some.injEq, Prod.mk.injEq] at h
    obtain ⟨h1, h2, h3, h4⟩ := get_memdimm_conf x (to_int m.socketid) ch dimm s
    rw [← h.1]
    exact ⟨h3, h1, h2, h4⟩

/-- One call without lost events adds one to the total of the event's class and leaves
the other total as it was. -/
theorem memory_error_single (x : Ext) (now : Nat) (m : mce) (ch dimm : Int) (n : Nat)
    (s : memdb) (hen : s.memdb_enabled ≠ 0) (hn : n ≤ 1) :
    ∃ s' tr, memory_error x now m ch dimm n s = some (s', tr) ∧
      class_total m.errclass s' (to_int m.socketid) ch dimm =
        (class_total m.errclass s (to_int m.socketid) ch dimm + 1) % 2 ^ 64 ∧
      class_total m.errclass.other s' (to_int m.socketid) ch dimm =
        class_total m.errclass.other s (to_int m.socketid) ch dimm := by
  obtain ⟨s', md0, a, hme, hrec, hrec'⟩ := memory_error_record x now m ch dimm n s hen
  obtain ⟨hce0, huc0⟩ := record_totals x s _ _ _ md0 hrec
  obtain ⟨_, _, _, _, hpce, hpuc⟩ := primary_step_fields x s (event_time now m) m a
    (lost_step x s (event_time now m) n a md0).1
  obtain ⟨_, hluc, _, _, _, hlce⟩ := lost_step_fields x s (event_time now m) n a md0
  have hno : ¬ (n ≠ 0 ∧ n - 1 > 0) := by omega
  rw [if_neg hno] at hlce
  refine ⟨s', _, hme, ?_⟩
  by_cases huc : m.status &&& MCI_STATUS_UC ≠ 0
  · have hcls : m.errclass = errclass.uc := by simp [mce.errclass, huc]
    rw [if_pos huc] at hpce hpuc
    rw [hcls]
    simp only [errclass.other, class_total]
    rw [← hce0, ← huc0]
    simp only [ce_total, uc_total, hrec', hpce, hpuc, hlce, hluc, and_self]
  · have hcls : m.errclass = errclass.ce := by simp [mce.errclass, huc]
    rw [if_neg huc] at hpce hpuc
    rw [hcls]
    simp only [errclass.other, class_total]
    rw [← hce0, ← huc0]
    simp only [ce_total, uc_total, hrec', hpce, hpuc, hlce, hluc, and_self]

/-- C4: with tracking enabled, `N` calls of `memory_error` on one key, all of one class
and all with `corr_err_cnt` 0 or 1, all return and leave the total of that class at its
value before plus `N` modulo `2^64` (the totals being `unsigned long`), and the total of
the other class of that record as it was. -/
theorem memory_error_seq_totals (x : Ext) (so ch di : Int) (cls : errclass) (cs : List call) :
    ∀ s : memdb, s.memdb_enabled ≠ 0 →
    class_total cls s so ch di < 2 ^ 64 →
    (∀ c ∈ cs, to_int c.m.socketid = so ∧ c.ch = ch ∧ c.dimm = di ∧ c.m.errclass = cls ∧
      c.corr_err_cnt ≤ 1) →
    ∃ s', memory_error_seq x cs s = some s' ∧
      class_total cls s' so ch di = (class_total cls s so ch di + cs.length) % 2 ^ 64 ∧
      class_total cls.other s' so ch di = class_total cls.other s so ch di := by
  induction cs with
  | nil =>
    intro s _ hty _
    refine ⟨s, rfl, ?_, rfl⟩
    simp only [List.length_nil, Nat.add_zero]
    exact (Nat.mod_eq_of_lt hty).symm
  | cons c cs ih =>
    intro s hen hty hall
    obtain ⟨hso, hch, hdi, hcls, hcorr⟩ := hall c (List.mem_cons_self c cs)
    obtain ⟨s1, tr, hme, h1, h2⟩ := memory_error_single x c.now c.m c.ch c.dimm c.corr_err_cnt s
      hen hcorr
    rw [hso, hch, hdi, hcls] at h1 h2
    have hen1 : s1.memdb_enabled ≠ 0 := by
      rw [(memory_error_conf x _ _ _ _ _ s s1 tr hme).1]
      exact hen
    have hty1 : class_total cls s1 so ch di < 2 ^ 64 := by
      rw [h1]
      exact Nat.mod_lt _ (by norm_num)
    obtain ⟨s', hseq, h3, h4⟩ := ih s1 hen1 hty1
      (fun c' hc' => hall c' (List.mem_cons_of_mem c hc'))
    refine ⟨s', ?_, ?_, ?_⟩
    · simp only [memory_error_seq, hme]
      exact hseq
    · rw [h3, h1]
      simp only [List.length_cons]
      norm_num
      omega
    · rw [h4, h2]

/-- C4 at an instance: three uncorrected events on the DIMM (0, 1, 2) of a registry
that has no record of it. -/
theorem memory_error_seq_totals_witness :
    ∃ s', memory_error_seq sample_ext
        [{ now := 7, m := { time := 0, socketid := 0, status := 2 ^ 61 }, ch := 1, dimm := 2,
           corr_err_cnt := 0 },
         { now := 8, m := { time := 5, socketid := 0, status := 2 ^ 61 }, ch := 1, dimm := 2,
           corr_err_cnt := 1 },
         { now := 9, m := { time := 6, socketid := 0, status := 2 ^ 61 + 1 }, ch := 1, dimm := 2,
           corr_err_cnt := 1 }]
        (memdb_empty sample_conf sample_conf 1) = some s' ∧
      class_total .uc s' 0 1 2 =
        (class_total .uc (memdb_empty sample_conf sample_conf 1) 0 1 2 + 3) % 2 ^ 64 ∧
      class_total errclass.uc.other s' 0 1 2 =
        class_total errclass.uc.other (memdb_empty sample_conf sample_conf 1) 0 1 2 :=
  memory_error_seq_totals sample_ext 0 1 2 .uc _ (memdb_empty sample_conf sample_conf 1)
    (by decide) (by decide) (by decide)

theorem primary_step_eq (x : Ext) (s : memdb) (t : Nat) (m : mce) (a : Nat) (md : memdimm) :
    (primary_step x s t m a md).2 =
      effect.account m.errclass a m.errclass (md.et m.errclass).bucket 1 t
          (x.bucket_account (s.conf m.errclass) (md.et m.errclass).bucket 1 t).1 ::
        (if (x.bucket_account (s.conf m.errclass) (md.et m.errclass).bucket 1 t).1 = true then
          [effect.trigger
            (if m.status &&& MCI_STATUS_UC ≠ 0
              then "Uncorrected DIMM memory error count exceeded threshold"
              else "Corrected DIMM memory error count exceeded threshold")
            a t m.errclass m.errclass
            (memdb_trigger x
              (if m.status &&& MCI_STATUS_UC ≠ 0
                then "Uncorrected DIMM memory error count exceeded threshold"
                else "Corrected DIMM memory error count exceeded threshold")
              (primary_step x s t m a md).1 t
              ((primary_step x s t m a md).1.et m.errclass) (s.conf m.errclass))]
        else []) ∧
    ((primary_step x s t m a md).1.et m.errclass).bucket =
      (x.bucket_account (s.conf m.errclass) (md.et m.errclass).bucket 1 t).2 := by
  by_cases huc : m.status &&& MCI_STATUS_UC ≠ 0
  · have hcls : m.errclass = errclass.uc := by simp [mce.errclass, huc]
    rw [hcls]
    dsimp only [primary_step, memdimm.et, memdb.conf]
    rw [if_pos huc, if_pos huc]
    split_ifs <;> simp
  · have hcls : m.errclass = errclass.ce := by simp [mce.errclass, huc]
    rw [hcls]
    dsimp only [primary_step, memdimm.et, memdb.conf]
    rw [if_neg huc, if_neg huc]
    split_ifs <;> simp

/-- C5: with tracking enabled, the calls of `memory_error` are those of its lost-event
block followed by exactly one accounting call of the primary step, with delta 1 and the
event time (the event's own time if non-zero, else the current time), on the bucket and
with the configuration of the class that `MCI_STATUS_UC` selects; `memdb_trigger` follows
iff that call reports a crossing, with the "Uncorrected" message for an uncorrected
event and the "Corrected" one otherwise, at that same event time, on the record as the
call leaves it. -/
theorem memory_error_primary (x : Ext) (now : Nat) (m : mce) (ch dimm : Int)
    (n : Nat) (s : memdb) (hen : s.memdb_enabled ≠ 0) :
    ∃ s' md0 md2 a t cls msg b,
      t = (if m.time ≠ 0 then m.time else now) ∧
      cls = (if m.status &&& MCI_STATUS_UC ≠ 0 then errclass.uc else errclass.ce) ∧
      msg = (if m.status &&& MCI_STATUS_UC ≠ 0
        then "Uncorrected DIMM memory error count exceeded threshold"
        else "Corrected DIMM memory error count exceeded threshold") ∧
      (dimm_record s (to_int m.socketid) ch dimm = some md0 ∨
        (dimm_record s (to_int m.socketid) ch dimm = none ∧
          md0 = fresh_memdimm x (to_int m.socketid) ch dimm)) ∧
      b = ((lost_step x s t n a md0).1.et cls).bucket ∧
      dimm_record s' (to_int m.socketid) ch dimm = some md2 ∧
      (md2.et cls).bucket = (x.bucket_account (s.conf cls) b 1 t).2 ∧
      memory_error x now m ch dimm n s = some (s',
        (lost_step x s t n a md0).2 ++
          effect.account cls a cls b 1 t (x.bucket_account (s.conf cls) b 1 t).1 ::
            (if (x.bucket_account (s.conf cls) b 1 t).1 = true
              then [effect.trigger msg a t cls cls
                (memdb_trigger x msg md2 t (md2.et cls) (s.conf cls))]
              else [])) := by
  obtain ⟨s', md0, a, hme, hrec, hrec'⟩ := memory_error_record x now m ch dimm n s hen
  obtain ⟨hp1, hp2⟩ := primary_step_eq x s (event_time now m) m a
    (lost_step x s (event_time now m) n a md0).1
  refine ⟨s', md0, _, a, _, _, _, _, rfl, rfl, rfl, hrec, rfl, hrec', hp2, ?_⟩
  rw [hme, hp1]
  rfl

/-- C5 at an instance: an uncorrected event without a time of its own, the current time
being 77, on the empty registry. -/
theorem memory_error_primary_witness :
    ∃ s' md0 md2 a t cls msg b,
      t = (if (0 : Nat) ≠ 0 then 0 else 77) ∧
      cls = (if 2 ^ 61 &&& MCI_STATUS_UC ≠ 0 then errclass.uc else errclass.ce) ∧
      msg = (if 2 ^ 61 &&& MCI_STATUS_UC ≠ 0
        then "Uncorrected DIMM memory error count exceeded threshold"
        else "Corrected DIMM memory error count exceeded threshold") ∧
      (dimm_record (memdb_empty sample_conf sample_conf 1) (to_int 0) 1 2 = some md0 ∨
        (dimm_record (memdb_empty sample_conf sample_conf 1) (to_int 0) 1 2 = none ∧
          md0 = fresh_memdimm always_ext (to_int 0) 1 2)) ∧
      b = ((lost_step always_ext (memdb_empty sample_conf sample_conf 1) t 3 a md0).1.et
        cls).bucket ∧
      dimm_record s' (to_int 0) 1 2 = some md2 ∧
      (md2.et cls).bucket = (always_ext.bucket_account
        ((memdb_empty sample_conf sample_conf 1).conf cls) b 1 t).2 ∧
      memory_error always_ext 77 { time := 0, socketid := 0, status := 2 ^ 61 } 1 2 3
        (memdb_empty sample_conf sample_conf 1) = some (s',
        (lost_step always_ext (memdb_empty sample_conf sample_conf 1) t 3 a md0).2 ++
          effect.account cls a cls b 1 t (always_ext.bucket_account
              ((memdb_empty sample_conf sample_conf 1).conf cls) b 1 t).1 ::
            (if (always_ext.bucket_account
                ((memdb_empty sample_conf sample_conf 1).conf cls) b 1 t).1 = true
              then [effect.trigger msg a t cls cls
                (memdb_trigger always_ext msg md2 t (md2.et cls)
                  ((memdb_empty sample_conf sample_conf 1).conf cls))]
              else [])) :=
  memory_error_primary always_ext 77 { time := 0, socketid := 0, status := 2 ^ 61 } 1 2 3
    (memdb_empty sample_conf sample_conf 1) (by decide)

/-! ## Theorems: trigger dispatch -/

theorem trigger_env_eq (x : Ext) (msg : String) (md : memdimm) (t : Nat) (et : err_type)
    (bc : bucket_conf) (location output : String) :
    trigger_env x msg md t et bc location output =
      [("PATH", match x.getenv_PATH with
          | some p => p
          | none => "/sbin:/usr/sbin:/bin:/usr/bin"),
        ("THRESHOLD", output), ("TOTALCOUNT", toString et.count), ("LOCATION", location)] ++
      ((match md.location with
          | some l => [("DMI_LOCATION", l)]
          | none => []) ++
      ((match md.name with
          | some n => [("DMI_NAME", n)]
          | none => []) ++
      ((if md.dimm ≠ -1 then [("DIMM", toString md.dimm)] else []) ++
      ((if md.channel ≠ -1 then [("CHANNEL", toString md.channel)] else []) ++
      ([("SOCKETID", toString md.socketid), ("CECOUNT", toString md.ce.count),
        ("UCCOUNT", toString md.uc.count)] ++
      ((if t ≠ 0 then [("LASTEVENT", toString t)] else []) ++
      [("AGETIME", toString bc.agetime), ("MESSAGE", msg),
        ("THRESHOLD_COUNT",
          toString (to_int ((et.bucket.count + et.bucket.excess) % 4294967296)))])))))) := by
  unfold trigger_env fmt_d fmt_u
  cases md.location <;> cases md.name <;> by_cases hd : md.dimm = -1 <;>
    by_cases hc : md.channel = -1 <;> by_cases ht : t = 0 <;>
    simp only [hd, hc, ht, ne_eq, not_true_eq_false, not_false_eq_true, if_true, if_false,
      List.nil_append, List.cons_append, List.append_nil]

theorem trigger_env_keys (x : Ext) (msg : String) (md : memdimm) (t : Nat) (et : err_type)
    (bc : bucket_conf) (location output : String) :
    (trigger_env x msg md t et bc location output).map Prod.fst =
      (["PATH", "THRESHOLD", "TOTALCOUNT", "LOCATION", "DMI_LOCATION", "DMI_NAME", "DIMM",
        "CHANNEL", "SOCKETID", "CECOUNT", "UCCOUNT", "LASTEVENT", "AGETIME", "MESSAGE",
        "THRESHOLD_COUNT"] : List String).filter (fun k =>
          (k ≠ "DMI_LOCATION" ∨ md.location ≠ none) ∧ (k ≠ "DMI_NAME" ∨ md.name ≠ none) ∧
          (k ≠ "DIMM" ∨ md.dimm ≠ -1) ∧ (k ≠ "CHANNEL" ∨ md.channel ≠ -1) ∧
          (k ≠ "LASTEVENT" ∨ t ≠ 0)) := by
  rw [trigger_env_eq]
  cases md.location <;> cases md.name <;> by_cases hd : md.dimm = -1 <;>
    by_cases hc : md.channel = -1 <;> by_cases ht : t = 0 <;>
    simp only [hd, hc, ht, ne_eq, not_true_eq_false, not_false_eq_true, if_true, if_false,
      or_true, or_false, and_true, true_and, reduceCtorEq] <;> rfl

theorem trigger_env_values (x : Ext) (msg : String) (md : memdimm) (t : Nat) (et : err_type)
    (bc : bucket_conf) (location output : String) :
    (trigger_env x msg md t et bc location output).lookup "PATH" =
      some (match x.getenv_PATH with
        | some p => p
        | none => "/sbin:/usr/sbin:/bin:/usr/bin") ∧
    (trigger_env x msg md t et bc location output).lookup "THRESHOLD" = some output ∧
    (trigger_env x msg md t et bc location output).lookup "TOTALCOUNT" =
      some (toString et.count) ∧
    (trigger_env x msg md t et bc location output).lookup "LOCATION" = some location ∧
    (trigger_env x msg md t et bc location output).lookup "DMI_LOCATION" = md.location ∧
    (trigger_env x msg md t et bc location output).lookup "DMI_NAME" = md.name ∧
    (trigger_env x msg md t et bc location output).lookup "DIMM" =
      (if md.dimm ≠ -1 then some (toString md.dimm) else none) ∧
    (trigger_env x msg md t et bc location output).lookup "CHANNEL" =
      (if md.channel ≠ -1 then some (toString md.channel) else none) ∧
    (trigger_env x msg md t et bc location output).lookup "SOCKETID" =
      some (toString md.socketid) ∧
    (trigger_env x msg md t et bc location output).lookup "CECOUNT" =
      some (toString md.ce.count) ∧
    (trigger_env x msg md t et bc location output).lookup "UCCOUNT" =
      some (toString md.uc.count) ∧
    (trigger_env x msg md t et bc location output).lookup "LASTEVENT" =
      (if t ≠ 0 then some (toString t) else none) ∧
    (trigger_env x msg md t et bc location output).lookup "AGETIME" =
      some (toString bc.agetime) ∧
    (trigger_env x msg md t et bc location output).lookup "MESSAGE" = some msg ∧
    (trigger_env x msg md t et bc location output).lookup "THRESHOLD_COUNT" =
      some (toString (to_int ((et.bucket.count + et.bucket.excess) % 4294967296))) := by
  rw [trigger_env_eq]
  cases md.location <;> cases md.name <;> by_cases hd : md.dimm = -1 <;>
    by_cases hc : md.channel = -1 <;> by_cases ht : t = 0 <;>
    simp only [hd, hc, ht, ne_eq, not_true_eq_false, not_false_eq_true, if_true, if_false] <;>
    exact ⟨rfl, rfl, rfl, rfl, rfl, rfl, rfl, rfl, rfl, rfl, rfl, rfl, rfl, rfl, rfl⟩

theorem to_int_small (v : Nat) (h : v < 2147483648) : to_int (v % 4294967296) = (v : Int) := by
  have h1 : v % 4294967296 = v := Nat.mod_eq_of_lt (by omega)
  unfold to_int
  rw [h1, h1, if_pos h]

/-- With a trigger path configured, `run_trigger` receives the path and the facts of
`env` rendered as `KEY=value`; the keys are the fifteen of the fixed list in that order,
the five optional ones present exactly under their conditions; and each value is the one
the source formats (`THRESHOLD_COUNT` the `unsigned` sum `count + excess` printed with
`%d`, which is the plain sum only below `2^31`). -/
theorem memdb_trigger_facts (x : Ext) (msg : String) (md : memdimm) (t : Nat) (et : err_type)
    (bc : bucket_conf) (path : String) (hp : bc.trigger = some path) :
    (memdb_trigger x msg md t et bc).run =
      some (path, (memdb_trigger x msg md t et bc).env.map fact.render) ∧
    (memdb_trigger x msg md t et bc).env.map Prod.fst =
      (["PATH", "THRESHOLD", "TOTALCOUNT", "LOCATION", "DMI_LOCATION", "DMI_NAME", "DIMM",
        "CHANNEL", "SOCKETID", "CECOUNT", "UCCOUNT", "LASTEVENT", "AGETIME", "MESSAGE",
        "THRESHOLD_COUNT"] : List String).filter (fun k =>
          (k ≠ "DMI_LOCATION" ∨ md.location ≠ none) ∧ (k ≠ "DMI_NAME" ∨ md.name ≠ none) ∧
          (k ≠ "DIMM" ∨ md.dimm ≠ -1) ∧ (k ≠ "CHANNEL" ∨ md.channel ≠ -1) ∧
          (k ≠ "LASTEVENT" ∨ t ≠ 0)) ∧
    ((memdb_trigger x msg md t et bc).env.lookup "PATH" =
      some (match x.getenv_PATH with
        | some p => p
        | none => "/sbin:/usr/sbin:/bin:/usr/bin") ∧
    (memdb_trigger x msg md t et bc).env.lookup "THRESHOLD" =
      some (x.bucket_output bc et.bucket) ∧
    (memdb_trigger x msg md t et bc).env.lookup "TOTALCOUNT" = some (toString et.count) ∧
    (memdb_trigger x msg md t et bc).env.lookup "LOCATION" = some (format_location md) ∧
    (memdb_trigger x msg md t et bc).env.lookup "DMI_LOCATION" = md.location ∧
    (memdb_trigger x msg md t et bc).env.lookup "DMI_NAME" = md.name ∧
    (memdb_trigger x msg md t et bc).env.lookup "DIMM" =
      (if md.dimm ≠ -1 then some (toString md.dimm) else none) ∧
    (memdb_trigger x msg md t et bc).env.lookup "CHANNEL" =
      (if md.channel ≠ -1 then some (toString md.channel) else none) ∧
    (memdb_trigger x msg md t et bc).env.lookup "SOCKETID" = some (toString md.socketid) ∧
    (memdb_trigger x msg md t et bc).env.lookup "CECOUNT" = some (toString md.ce.count) ∧
    (memdb_trigger x msg md t et bc).env.lookup "UCCOUNT" = some (toString md.uc.count) ∧
    (memdb_trigger x msg md t et bc).env.lookup "LASTEVENT" =
      (if t ≠ 0 then some (toString t) else none) ∧
    (memdb_trigger x msg md t et bc).env.lookup "AGETIME" = some (toString bc.agetime) ∧
    (memdb_trigger x msg md t et bc).env.lookup "MESSAGE" = some msg ∧
    (memdb_trigger x msg md t et bc).env.lookup "THRESHOLD_COUNT" =
      some (toString (to_int ((et.bucket.count + et.bucket.excess) % 4294967296)))) ∧
    (et.bucket.count + et.bucket.excess < 2147483648 →
      (memdb_trigger x msg md t et bc).env.lookup "THRESHOLD_COUNT" =
        some (toString (et.bucket.count + et.bucket.excess))) := by
  have hlen : (trigger_env x msg md t et bc (format_location md)
      (x.bucket_output bc et.bucket)).length < MAX_ENV := by
    have := (trigger_env_length x msg md t et bc (format_location md)
      (x.bucket_output bc et.bucket)).2
    unfold MAX_ENV
    omega
  have hv := trigger_env_values x msg md t et bc (format_location md)
    (x.bucket_output bc et.bucket)
  have henv : (memdb_trigger x msg md t et bc).env = trigger_env x msg md t et bc
      (format_location md) (x.bucket_output bc et.bucket) := by
    simp only [memdb_trigger, hp, hlen, if_true]
  have hrun : (memdb_trigger x msg md t et bc).run = some (path,
      (trigger_env x msg md t et bc (format_location md)
        (x.bucket_output bc et.bucket)).map fact.render) := by
    simp only [memdb_trigger, hp, hlen, if_true]
  rw [henv, hrun]
  refine ⟨rfl, trigger_env_keys x msg md t et bc _ _, hv, ?_⟩
  intro h
  rw [hv.2.2.2.2.2.2.2.2.2.2.2.2.2.2, to_int_small _ h]
  rfl

/-- The facts at an instance: a record with a name and no location label, channel
unknown, an event time, and the trigger path of the sample configuration. -/
theorem memdb_trigger_facts_witness :
    (memdb_trigger sample_ext "m"
        { memdimm_zero with name := some "DIMM_A1", channel := -1, dimm := 3 } 1000
        { bucket := { count := 2, excess := 1, tstamp := 0 }, count := 9 } sample_conf).run =
      some ("/usr/bin/dimm-trigger",
        ["PATH=/sbin:/usr/sbin:/bin:/usr/bin", "THRESHOLD=2 in 24h", "TOTALCOUNT=9",
         "LOCATION=SOCKET:0 CHANNEL:? DIMM:3 [DIMM_A1]", "DMI_NAME=DIMM_A1", "DIMM=3",
         "SOCKETID=0", "CECOUNT=0", "UCCOUNT=0", "LASTEVENT=1000", "AGETIME=24", "MESSAGE=m",
         "THRESHOLD_COUNT=3"]) :=
  (memdb_trigger_facts sample_ext "m"
    { memdimm_zero with name := some "DIMM_A1", channel := -1, dimm := 3 } 1000
    { bucket := { count := 2, excess := 1, tstamp := 0 }, count := 9 } sample_conf
    "/usr/bin/dimm-trigger" rfl).1.trans (by decide)

/-- C6: the code at a failing input. A counter whose bucket holds `count + excess = 2^31`
(here `count = 0` and `excess = 2147483648`) is dispatched with a trigger path set:
`THRESHOLD_COUNT` is formatted with `%d` from the `unsigned` sum, so the fact handed to
`run_trigger` is `THRESHOLD_COUNT=-2147483648`, not the bucket's count plus excess;
`AGETIME`, an `unsigned` as well, is formatted with `%u`. -/
theorem memdb_trigger_threshold_count_bug :
    (memdb_trigger sample_ext "m" (sample_dimm 0 1 2 none none) 1000
        { bucket := { count := 0, excess := 2147483648, tstamp := 0 }, count := 9 }
        sample_conf).run =
      some ("/usr/bin/dimm-trigger",
        ["PATH=/sbin:/usr/sbin:/bin:/usr/bin", "THRESHOLD=0 in 24h", "TOTALCOUNT=9",
         "LOCATION=SOCKET:0 CHANNEL:1 DIMM:2 []", "DIMM=2", "CHANNEL=1",
         "SOCKETID=0", "CECOUNT=0", "UCCOUNT=0", "LASTEVENT=1000", "AGETIME=24", "MESSAGE=m",
         "THRESHOLD_COUNT=-2147483648"]) ∧
    (memdb_trigger sample_ext "m" (sample_dimm 0 1 2 none none) 1000
        { bucket := { count := 0, excess := 2147483648, tstamp := 0 }, count := 9 }
        sample_conf).env.lookup "THRESHOLD_COUNT" = some "-2147483648" ∧
    toString ((0 : Nat) + 2147483648) = "2147483648" := by
  decide

/-- C7 as stated fails without a trigger path: `memdb_trigger` returns before the first
fact, so it builds none, not ten. -/
theorem memdb_trigger_count_counterexample :
    (memdb_trigger sample_ext "m" memdimm_zero 1000 memdimm_zero.ce
      { sample_conf with trigger := none }).env.length = 0 ∧
    ¬ 10 ≤ (memdb_trigger sample_ext "m" memdimm_zero 1000 memdimm_zero.ce
      { sample_conf with trigger := none }).env.length := by
  decide

/-- C7, amended: with a trigger path set `memdb_trigger` builds at least 10 and at most
15 facts, without one it builds none; in every case the final `ei` and the slot of the
terminating `NULL` are inside the `MAX_ENV = 20` slots of `env`, and the assertion
`ei < MAX_ENV` holds. -/
theorem memdb_trigger_count (x : Ext) (msg : String) (md : memdimm) (t : Nat) (et : err_type)
    (bc : bucket_conf) :
    (bc.trigger ≠ none → 10 ≤ (memdb_trigger x msg md t et bc).env.length ∧
      (memdb_trigger x msg md t et bc).env.length ≤ 15) ∧
    (bc.trigger = none → (memdb_trigger x msg md t et bc).env = []) ∧
    (memdb_trigger x msg md t et bc).env.length + 1 ≤ MAX_ENV ∧
    MAX_ENV = 20 ∧
    (memdb_trigger x msg md t et bc).aborted = false := by
  have hl := trigger_env_length x msg md t et bc (format_location md)
    (x.bucket_output bc et.bucket)
  have hlen : (trigger_env x msg md t et bc (format_location md)
      (x.bucket_output bc et.bucket)).length < MAX_ENV := by
    unfold MAX_ENV
    omega
  refine ⟨?_, ?_, ?_, rfl, memdb_trigger_aborted x msg md t et bc⟩
  · intro h
    cases hp : bc.trigger with
    | none => exact absurd hp h
    | some path =>
      simp only [memdb_trigger, hp, hlen, if_true]
      exact hl
  · intro h
    simp only [memdb_trigger, h]
  · cases hp : bc.trigger with
    | none =>
      simp only [memdb_trigger, hp, List.length_nil]
      decide
    | some path =>
      simp only [memdb_trigger, hp, hlen, if_true]
      unfold MAX_ENV
      omega

/-- C7, amended, at an instance: a record with every optional field and an event time
gives the full fifteen facts. -/
theorem memdb_trigger_count_witness :
    (memdb_trigger sample_ext "m"
      { memdimm_zero with name := some "N", location := some "L" } 1000 memdimm_zero.ce
      sample_conf).env.length = 15 ∧
    (sample_conf.trigger ≠ none →
      10 ≤ (memdb_trigger sample_ext "m"
        { memdimm_zero with name := some "N", location := some "L" } 1000 memdimm_zero.ce
        sample_conf).env.length ∧
      (memdb_trigger sample_ext "m"
        { memdimm_zero with name := some "N", location := some "L" } 1000 memdimm_zero.ce
        sample_conf).env.length ≤ 15) :=
  ⟨by decide, (memdb_trigger_count sample_ext "m"
    { memdimm_zero with name := some "N", location := some "L" } 1000 memdimm_zero.ce
    sample_conf).1⟩

theorem memdb_trigger_no_lastevent (x : Ext) (msg : String) (md : memdimm) (et : err_type)
    (bc : bucket_conf) :
    "LASTEVENT" ∉ (memdb_trigger x msg md 0 et bc).env.map Prod.fst := by
  cases hp : bc.trigger with
  | none => simp [memdb_trigger, hp]
  | some path =>
    have hlen : (trigger_env x msg md 0 et bc (format_location md)
        (x.bucket_output bc et.bucket)).length < MAX_ENV := by
      have := (trigger_env_length x msg md 0 et bc (format_location md)
        (x.bucket_output bc et.bucket)).2
      unfold MAX_ENV
      omega
    have henv : (memdb_trigger x msg md 0 et bc).env = trigger_env x msg md 0 et bc
        (format_location md) (x.bucket_output bc et.bucket) := by
      simp only [memdb_trigger, hp, hlen, if_true]
    rw [henv, trigger_env_keys]
    intro hmem
    have h2 := (List.mem_filter.1 hmem).2
    simp at h2

/-- C8 as stated fails: a call with lost count 5 whose lost events cross the threshold
dispatches the message with 4, the decremented count, and no 5 in it. -/
theorem memory_error_lost_message_counterexample :
    (memory_error always_ext 0 { time := 1000, socketid := 0, status := 0 } 1 2 5
      (memdb_empty sample_conf sample_conf 1)).map (fun r => r.2.filterMap effect.msg) =
      some ["Lost DIMM memory error count 4 exceeded threshold",
        "Corrected DIMM memory error count exceeded threshold"] ∧
    '5' ∉ "Lost DIMM memory error count 4 exceeded threshold".toList := by
  decide

/-- C8, amended: with tracking enabled the calls of `memory_error` are those for the lost
events followed by those of the primary step; every `memdb_trigger` call among the
former is made on the CE counter with the CE configuration and event time 0, whatever
the event's time, so its facts have no `LASTEVENT` key; its message is
`Lost DIMM memory error count <corr_err_cnt - 1> exceeded threshold`, with the
decremented count (for counts below `2^31`); and such a call is made exactly when
`corr_err_cnt >= 2` and the accounting of the lost events reports a crossing. -/
theorem memory_error_lost_alert (x : Ext) (now : Nat) (m : mce) (ch dimm : Int)
    (n : Nat) (s : memdb) (hen : s.memdb_enabled ≠ 0) :
    ∃ s' md0 md1 a lost,
      memory_error x now m ch dimm n s = some (s',
        lost ++ (primary_step x s (event_time now m) m a md1).2) ∧
      (dimm_record s (to_int m.socketid) ch dimm = some md0 ∨
        (dimm_record s (to_int m.socketid) ch dimm = none ∧
          md0 = fresh_memdimm x (to_int m.socketid) ch dimm)) ∧
      (∀ e ∈ lost, ∀ (msg : String) (p t : Nat) (et bc : errclass) (out : trigger_result),
        e = effect.trigger msg p t et bc out →
          t = 0 ∧ et = errclass.ce ∧ bc = errclass.ce ∧ p = a ∧
          out = memdb_trigger x msg md1 0 md1.ce s.ce_bucket_conf ∧
          "LASTEVENT" ∉ out.env.map Prod.fst ∧
          msg = "Lost DIMM memory error count " ++ toString (to_int (n - 1)) ++
            " exceeded threshold" ∧
          (n - 1 < 2147483648 → msg = "Lost DIMM memory error count " ++ toString (n - 1) ++
            " exceeded threshold")) ∧
      ((∃ e ∈ lost, e.msg ≠ none) ↔
        (2 ≤ n ∧ (x.bucket_account s.ce_bucket_conf md0.ce.bucket (n - 1)
          (event_time now m)).1 = true)) := by
  obtain ⟨s', md0, a, hme, hrec, _⟩ := memory_error_record x now m ch dimm n s hen
  refine ⟨s', md0, (lost_step x s (event_time now m) n a md0).1, a,
    (lost_step x s (event_time now m) n a md0).2, hme, hrec, ?_, ?_⟩
  · intro e he msg p t et bc out heq
    subst heq
    have hsmall : n - 1 < 2147483648 →
        toString (to_int (n - 1)) = toString (n - 1) := by
      intro h
      have h1 : to_int (n - 1) = ((n - 1 : Nat) : Int) := by
        have := to_int_small (n - 1) h
        rwa [Nat.mod_eq_of_lt (by omega)] at this
      rw [h1]
      rfl
    dsimp only [lost_step] at he ⊢
    split_ifs at he ⊢ with h1 h2
    · simp only [List.mem_cons, List.mem_singleton, effect.trigger.injEq, reduceCtorEq,
        false_or, List.not_mem_nil, or_false] at he
      obtain ⟨hm, hp, ht, het, hbc, hout⟩ := he
      subst hm hp ht het hbc
      refine ⟨rfl, rfl, rfl, rfl, hout, ?_, rfl, ?_⟩
      · rw [hout]
        exact memdb_trigger_no_lastevent x _ _ _ _
      · intro h
        simp only [fmt_d]
        rw [hsmall h]
    · simp at he
    · simp at he
  · dsimp only [lost_step]
    split_ifs with h1 h2
    · simp only [List.mem_cons, List.mem_singleton, List.not_mem_nil, or_false, exists_eq_or_imp,
        exists_eq_left, effect.msg, ne_eq, not_true_eq_false, reduceCtorEq, not_false_eq_true,
        false_or, true_iff]
      exact ⟨by omega, h2⟩
    · simp only [List.mem_singleton, exists_eq_left, effect.msg, ne_eq, not_true_eq_false,
        false_iff, not_and]
      intro _
      exact h2
    · simp only [List.not_mem_nil, false_and, exists_false, false_iff, not_and]
      intro h
      omega

/-- C8, amended, at an instance: lost count 5 with an accountant that always reports a
crossing. -/
theorem memory_error_lost_alert_witness :
    ∃ s' md0 md1 a lost,
      memory_error always_ext 0 { time := 1000, socketid := 0, status := 0 } 1 2 5
        (memdb_empty sample_conf sample_conf 1) = some (s',
        lost ++ (primary_step always_ext (memdb_empty sample_conf sample_conf 1)
          (event_time 0 { time := 1000, socketid := 0, status := 0 })
          { time := 1000, socketid := 0, status := 0 } a md1).2) ∧
      (dimm_record (memdb_empty sample_conf sample_conf 1) (to_int 0) 1 2 = some md0 ∨
        (dimm_record (memdb_empty sample_conf sample_conf 1) (to_int 0) 1 2 = none ∧
          md0 = fresh_memdimm always_ext (to_int 0) 1 2)) ∧
      (∀ e ∈ lost, ∀ (msg : String) (p t : Nat) (et bc : errclass) (out : trigger_result),
        e = effect.trigger msg p t et bc out →
          t = 0 ∧ et = errclass.ce ∧ bc = errclass.ce ∧ p = a ∧
          out = memdb_trigger always_ext msg md1 0 md1.ce
            (memdb_empty sample_conf sample_conf 1).ce_bucket_conf ∧
          "LASTEVENT" ∉ out.env.map Prod.fst ∧
          msg = "Lost DIMM memory error count " ++ toString (to_int (5 - 1)) ++
            " exceeded threshold" ∧
          (5 - 1 < 2147483648 → msg = "Lost DIMM memory error count " ++ toString (5 - 1) ++
            " exceeded threshold")) ∧
      ((∃ e ∈ lost, e.msg ≠ none) ↔
        (2 ≤ 5 ∧ (always_ext.bucket_account
          (memdb_empty sample_conf sample_conf 1).ce_bucket_conf md0.ce.bucket (5 - 1)
          (event_time 0 { time := 1000, socketid := 0, status := 0 })).1 = true)) :=
  memory_error_lost_alert always_ext 0 { time := 1000, socketid := 0, status := 0 } 1 2 5
    (memdb_empty sample_conf sample_conf 1) (by decide)

/-- The `%d` of the `unsigned` lost count, at an instance: a call with
`corr_err_cnt = 2147483650` whose lost events cross the threshold dispatches the message
with -2147483647. -/
theorem memory_error_lost_message_signed :
    (memory_error always_ext 0 { time := 1000, socketid := 0, status := 0 } 1 2 2147483650
      (memdb_empty sample_conf sample_conf 1)).map (fun r => r.2.filterMap effect.msg) =
      some ["Lost DIMM memory error count -2147483647 exceeded threshold",
        "Corrected DIMM memory error count exceeded threshold"] := by
  decide

/-! ## Theorems: location format -/

/-- C9: `format_location` returns `SOCKET:<socketid> CHANNEL:<c> DIMM:<d> [<suffix>]`,
with `?` for a channel or dimm of -1 and the decimal value otherwise, and as suffix the
location, a space and the name when both are present, the one present when only one is,
and nothing when neither is, the brackets always being there; so location `A` with name
`B` gives `[A B]`, name `B` alone `[B]`, and neither `[]`. -/
theorem format_location_shape (md : memdimm) :
    format_location md =
      "SOCKET:" ++ toString md.socketid ++
      " CHANNEL:" ++ (if md.channel = -1 then "?" else toString md.channel) ++
      " DIMM:" ++ (if md.dimm = -1 then "?" else toString md.dimm) ++
      " [" ++ (match md.location, md.name with
        | some l, some n => l ++ " " ++ n
        | some l, none => l
        | none, some n => n
        | none, none => "") ++ "]" ∧
    format_location (sample_dimm 3 (-1) 12 (some "A") (some "B")) =
      "SOCKET:3 CHANNEL:? DIMM:12 [A B]" ∧
    format_location (sample_dimm 3 4 (-1) none (some "B")) = "SOCKET:3 CHANNEL:4 DIMM:? [B]" ∧
    format_location (sample_dimm 0 (-1) (-1) none none) = "SOCKET:0 CHANNEL:? DIMM:? []" := by
  refine ⟨?_, by decide, by decide, by decide⟩
  unfold format_location fmt_d number
  cases md.location <;> cases md.name <;> simp [String.append_assoc]

/-! ## Theorems: dump -/

/-- The dump-ordering instance of the spec: records created for (1,2,3), (0,5,5) and
(1,0,0) are dumped under `DUMP_ALL` in the order (0,5,5), (1,0,0), (1,2,3), one block
each, with one blank line between blocks. -/
theorem dump_order_spec_instance :
    dump_memory_errors sample_ext DUMP_ALL
      (get_memdimm_seq sample_ext [(1, 2, 3), (0, 5, 5), (1, 0, 0)]
        (memdb_empty sample_conf sample_conf 1)).1 =
    some ("SOCKET 0 CHANNEL 5 DIMM 5\ncorrected memory errors:\n\t0 total\n\t0 in 24h\n" ++
      "uncorrected memory errors:\n\t0 total\n\t0 in 24h\n" ++
      "\nSOCKET 1 CHANNEL 0 DIMM 0\ncorrected memory errors:\n\t0 total\n\t0 in 24h\n" ++
      "uncorrected memory errors:\n\t0 total\n\t0 in 24h\n" ++
      "\nSOCKET 1 CHANNEL 2 DIMM 3\ncorrected memory errors:\n\t0 total\n\t0 in 24h\n" ++
      "uncorrected memory errors:\n\t0 total\n\t0 in 24h\n") := by
  decide

/-- C10: the code at a failing input. The registry holds the keys (0, -2147483648, 0)
and (0, 1, 0); in `cmp_dimm` the difference `-2147483648 - 1` wraps to a positive `int`
and `1 - (-2147483648)` to a negative one, so the record of channel 1 is dumped before
the one of channel -2147483648, whichever was created first, although -2147483648 is the
smaller channel. -/
theorem dump_memory_errors_order_bug :
    cmp_dimm (sample_dimm 0 (-2147483648) 0 none none) (sample_dimm 0 1 0 none none) =
      2147483647 ∧
    cmp_dimm (sample_dimm 0 1 0 none none) (sample_dimm 0 (-2147483648) 0 none none) =
      -2147483647 ∧
    dump_memory_errors sample_ext DUMP_ALL
      (get_memdimm_seq sample_ext [(0, -2147483648, 0), (0, 1, 0)]
        (memdb_empty sample_conf sample_conf 1)).1 =
    some ("SOCKET 0 CHANNEL 1 DIMM 0\ncorrected memory errors:\n\t0 total\n" ++
      "\t0 in 24h\nuncorrected memory errors:\n\t0 total\n\t0 in 24h\n" ++
      "\nSOCKET 0 CHANNEL -2147483648 DIMM 0\ncorrected memory errors:\n\t0 total\n" ++
      "\t0 in 24h\nuncorrected memory errors:\n\t0 total\n\t0 in 24h\n") ∧
    dump_memory_errors sample_ext DUMP_ALL
      (get_memdimm_seq sample_ext [(0, 1, 0), (0, -2147483648, 0)]
        (memdb_empty sample_conf sample_conf 1)).1 =
    dump_memory_errors sample_ext DUMP_ALL
      (get_memdimm_seq sample_ext [(0, -2147483648, 0), (0, 1, 0)]
        (memdb_empty sample_conf sample_conf 1)).1 := by
  decide

/-! ## Theorems: dump contents -/

theorem dump_dimm_emits_iff (x : Ext) (s : memdb) (md : memdimm) (flags : Nat)
    (h : md.ce.count + md.uc.count < 2 ^ 64) :
    dump_dimm x s md flags ≠ "" ↔
      (md.ce.count ≠ 0 ∨ md.uc.count ≠ 0 ∨ flags &&& DUMP_ALL ≠ 0) := by
  unfold dump_dimm
  rw [Nat.mod_eq_of_lt h]
  by_cases hc : md.ce.count + md.uc.count > 0 ∨ flags &&& DUMP_ALL ≠ 0
  · rw [if_pos hc]
    constructor
    · intro _
      rcases hc with hc | hc
      · by_cases h0 : md.ce.count = 0
        · right; left; omega
        · left; exact h0
      · right; right; exact hc
    · intro _ heq
      have hl := congrArg String.length heq
      simp only [String.length_append] at hl
      have h7 : "SOCKET ".length = 7 := by decide
      have h0 : "".length = 0 := rfl
      rw [h7, h0] at hl
      omega
  · rw [if_neg hc]
    constructor
    · intro h1
      exact absurd rfl h1
    · intro h1 _
      apply hc
      rcases h1 with h1 | h1 | h1
      · left; omega
      · left; omega
      · right; exact h1

/-- C11: the code at a failing input. A record with CE total `2^64 - 1` and UC total 1
has both totals non-zero, but their `unsigned long` sum wraps to 0, so without
`DUMP_ALL` `dump_dimm` writes nothing for it. -/
theorem dump_dimm_wrap_bug :
    dump_dimm sample_ext (memdb_empty sample_conf sample_conf 1)
      { memdimm_zero with ce := { memdimm_zero.ce with count := 18446744073709551615 },
                          uc := { memdimm_zero.uc with count := 1 } } 0 = "" ∧
    (18446744073709551615 : Nat) < 2 ^ 64 ∧ (18446744073709551615 : Nat) ≠ 0 ∧
    (1 : Nat) ≠ 0 := by
  decide

/-- C12: the code at a failing input. With the DIMM (0,0,0) known without errors and one
corrected error on (0,0,1), the dump without `DUMP_ALL` writes the separator of the
omitted record: the text starts with an empty line before its only block; with the
error on (0,0,0) instead, the text ends with an empty line after its only block. -/
theorem dump_memory_errors_blank_bug :
    sample_dump_state.bind (dump_memory_errors sample_ext 0) =
      some ("\nSOCKET 0 CHANNEL 0 DIMM 1\ncorrected memory errors:\n\t1 total\n" ++
        "\t1 in 24h\n") ∧
    (memory_error_seq sample_ext
      [{ now := 0, m := { time := 1000, socketid := 0, status := 0 }, ch := 0, dimm := 0,
         corr_err_cnt := 0 }]
      (get_memdimm sample_ext 0 0 1 (memdb_empty sample_conf sample_conf 1)).1).bind
        (dump_memory_errors sample_ext 0) =
      some ("SOCKET 0 CHANNEL 0 DIMM 0\ncorrected memory errors:\n\t1 total\n" ++
        "\t1 in 24h\n\n") := by
  decide

/-- C13: for one class `dump_errtype` writes, in this order, the header `<name>:` iff the
total or the bucket count is non-zero or `DUMP_ALL` is set, the line of the total iff the
total is non-zero or `DUMP_ALL` is set, and the line of the accountant summary iff the
bucket count is non-zero or `DUMP_ALL` is set: all three under `DUMP_ALL`, and otherwise
the header with whichever of the two lines has a non-zero count, and nothing at all when
both counts are zero; an emitted block ends with the corrected class followed by the
uncorrected class. -/
theorem dump_errtype_lines (x : Ext) (name : String) (e : err_type) (flags : Nat)
    (bc : bucket_conf) (s : memdb) (md : memdimm) :
    (flags &&& DUMP_ALL ≠ 0 ∨ (e.count ≠ 0 ∧ e.bucket.count ≠ 0) →
      dump_errtype x name e flags bc =
        name ++ ":\n" ++ ("\t" ++ toString e.count ++ " total\n") ++
          ("\t" ++ x.bucket_output bc e.bucket ++ "\n")) ∧
    (flags &&& DUMP_ALL = 0 → e.count ≠ 0 → e.bucket.count = 0 →
      dump_errtype x name e flags bc =
        name ++ ":\n" ++ ("\t" ++ toString e.count ++ " total\n")) ∧
    (flags &&& DUMP_ALL = 0 → e.count = 0 → e.bucket.count ≠ 0 →
      dump_errtype x name e flags bc =
        name ++ ":\n" ++ ("\t" ++ x.bucket_output bc e.bucket ++ "\n")) ∧
    (flags &&& DUMP_ALL = 0 → e.count = 0 → e.bucket.count = 0 →
      dump_errtype x name e flags bc = "") ∧
    (dump_dimm x s md flags = "" ∨
      ∃ head, dump_dimm x s md flags =
        head ++ dump_errtype x "corrected memory errors" md.ce flags s.ce_bucket_conf ++
          dump_errtype x "uncorrected memory errors" md.uc flags s.uc_bucket_conf) := by
  refine ⟨?_, ?_, ?_, ?_, ?_⟩
  · intro h
    unfold dump_errtype fmt_u
    rcases h with h | ⟨h1, h2⟩
    · simp [h]
    · simp [h1, h2]
  · intro h1 h2 h3
    unfold dump_errtype fmt_u
    simp [h1, h2, h3]
  · intro h1 h2 h3
    unfold dump_errtype fmt_u
    simp [h1, h2, h3]
  · intro h1 h2 h3
    unfold dump_errtype fmt_u
    simp [h1, h2, h3]
  · unfold dump_dimm
    by_cases hc : (md.ce.count + md.uc.count) % 2 ^ 64 > 0 ∨ flags &&& DUMP_ALL ≠ 0
    · rw [if_pos hc]
      right
      exact ⟨_, rfl⟩
    · rw [if_neg hc]
      left
      rfl

/-- C13 at an instance: a class with total 3 and an idle bucket, without `DUMP_ALL`. -/
theorem dump_errtype_lines_witness :
    dump_errtype sample_ext "corrected memory errors"
      { bucket := { count := 0, excess := 0, tstamp := 0 }, count := 3 } 0 sample_conf =
      "corrected memory errors:\n\t3 total\n" :=
  (dump_errtype_lines sample_ext "corrected memory errors"
    { bucket := { count := 0, excess := 0, tstamp := 0 }, count := 3 } 0 sample_conf
    (memdb_empty sample_conf sample_conf 1) memdimm_zero).2.1 (by decide) (by decide)
    (by decide)

/-- C16: with tracking disabled `memory_error` returns at once: the state is the one it
was given (no record created, `md_numdimms` and every counter as before) and it makes
no call, neither of the accountant nor of `memdb_trigger`. -/
theorem memory_error_disabled (x : Ext) (now : Nat) (m : mce) (ch dimm : Int) (n : Nat)
    (s : memdb) (h : s.memdb_enabled = 0) :
    memory_error x now m ch dimm n s = some (s, []) := by
  simp [memory_error, h]

/-- C16 at an instance: an uncorrected event with lost count 5 on a registry with
tracking disabled. -/
theorem memory_error_disabled_witness :
    memory_error always_ext 7 { time := 1000, socketid := 0, status := 2 ^ 61 } 1 2 5
      (memdb_empty sample_conf sample_conf 0) =
      some (memdb_empty sample_conf sample_conf 0, []) :=
  memory_error_disabled always_ext 7 { time := 1000, socketid := 0, status := 2 ^ 61 } 1 2 5
    (memdb_empty sample_conf sample_conf 0) rfl

theorem memdb_trigger_frees (x : Ext) (msg : String) (md : memdimm) (t : Nat) (et : err_type)
    (bc : bucket_conf) (path : String) (hp : bc.trigger = some path) :
    ((memdb_trigger x msg md t et bc).freed).Perm (memdb_trigger x msg md t et bc).allocated := by
  have hlen : (trigger_env x msg md t et bc (format_location md)
      (x.bucket_output bc et.bucket)).length < MAX_ENV := by
    have := (trigger_env_length x msg md t et bc (format_location md)
      (x.bucket_output bc et.bucket)).2
    unfold MAX_ENV
    omega
  simp only [memdb_trigger, hp, hlen, if_true]
  exact List.perm_append_comm

/-- C18: the code at a failing input. With no trigger path configured `memdb_trigger`
returns after the two `Gprintf` lines: it has allocated the location string and the
accountant summary and frees neither. -/
theorem memdb_trigger_leak :
    (memdb_trigger sample_ext "m" memdimm_zero 1000 memdimm_zero.ce
      { sample_conf with trigger := none }).allocated =
      ["SOCKET:0 CHANNEL:0 DIMM:0 []", "0 in 24h"] ∧
    (memdb_trigger sample_ext "m" memdimm_zero 1000 memdimm_zero.ce
      { sample_conf with trigger := none }).freed = [] := by
  decide

/-- C19: the code at failing inputs. Socket -2147483648 is below socket 1, yet `cmp_dimm`
returns a positive value for that pair (the difference wraps); the three sockets
-2147483648, 0, 1 compare negative pairwise in ascending order except the first with the
last, so the comparison is not transitive; and the sockets 2147483647 and -1 compare
negative both ways round. -/
theorem cmp_dimm_order_bug :
    cmp_dimm (sample_dimm (-2147483648) 0 0 none none) (sample_dimm 1 0 0 none none) =
      2147483647 ∧
    cmp_dimm (sample_dimm (-2147483648) 0 0 none none) (sample_dimm 0 0 0 none none) < 0 ∧
    cmp_dimm (sample_dimm 0 0 0 none none) (sample_dimm 1 0 0 none none) < 0 ∧
    cmp_dimm (sample_dimm 2147483647 0 0 none none) (sample_dimm (-1) 0 0 none none) < 0 ∧
    cmp_dimm (sample_dimm (-1) 0 0 none none) (sample_dimm 2147483647 0 0 none none) < 0 := by
  decide

/-! ## Theorems: frame of the registry operations -/

theorem find_memdimm_valid {heap : List memdimm} {so ch di : Int} {chain : List Nat} {a : Nat}
    (h : find_memdimm heap so ch di chain = some a) : a < heap.length := by
  obtain ⟨_, md, hmd, _⟩ := find_memdimm_some h
  by_contra hc
  rw [List.getElem?_eq_none (by omega)] at hmd
  cases hmd

/-- Looking up another key is not affected by what `get_memdimm` does for a key. -/
theorem dimm_record_get_frame (x : Ext) (so ch di so' ch' di' : Int) (s : memdb)
    (hne : (so', ch', di') ≠ (so, ch, di)) :
    dimm_record (get_memdimm x so ch di s).1 so' ch' di' = dimm_record s so' ch' di' := by
  cases hf : find_memdimm s.heap so ch di
      (s.md_dimms (dimmhash (to_unsigned so) di (to_unsigned ch))) with
  | some a => rw [get_memdimm_hit hf]
  | none =>
    rw [get_memdimm_miss hf]
    have hkm : key_match so' ch' di' (fresh_memdimm x so ch di) = false := by
      rw [Bool.eq_false_iff]
      intro h
      have := (key_match_iff so' ch' di' _).1 h
      exact hne this.symm
    have hA : ∀ chain : List Nat,
        find_memdimm (s.heap ++ [fresh_memdimm x so ch di]) so' ch' di' chain =
          find_memdimm s.heap so' ch' di' chain := by
      intro chain
      unfold find_memdimm
      congr 1
      funext a
      rcases Nat.lt_trichotomy a s.heap.length with hlt | heq | hgt
      · rw [List.getElem?_append_left hlt]
      · subst heq
        simp [hkm]
      · rw [List.getElem?_eq_none (by simp; omega), List.getElem?_eq_none (by omega)]
    have hB : find_memdimm (s.heap ++ [fresh_memdimm x so ch di]) so' ch' di'
        (s.heap.length :: s.md_dimms (dimmhash (to_unsigned so) di (to_unsigned ch))) =
        find_memdimm (s.heap ++ [fresh_memdimm x so ch di]) so' ch' di'
          (s.md_dimms (dimmhash (to_unsigned so) di (to_unsigned ch))) := by
      unfold find_memdimm
      rw [List.find?_cons]
      simp [hkm]
    have hfind : find_memdimm (s.heap ++ [fresh_memdimm x so ch di]) so' ch' di'
        (if dimmhash (to_unsigned so') di' (to_unsigned ch') =
            dimmhash (to_unsigned so) di (to_unsigned ch)
          then s.heap.length :: s.md_dimms (dimmhash (to_unsigned so) di (to_unsigned ch))
          else s.md_dimms (dimmhash (to_unsigned so') di' (to_unsigned ch'))) =
        find_memdimm s.heap so' ch' di'
          (s.md_dimms (dimmhash (to_unsigned so') di' (to_unsigned ch'))) := by
      split_ifs with hh
      · rw [hB, hA, hh]
      · rw [hA]
    unfold dimm_record
    simp only
    rw [hfind]
    cases hf' : find_memdimm s.heap so' ch' di'
        (s.md_dimms (dimmhash (to_unsigned so') di' (to_unsigned ch'))) with
    | none => rfl
    | some b =>
      simp only
      rw [List.getElem?_append_left (find_memdimm_valid hf')]

/-- Looking up another key is not affected by a write to a record that keeps its key. -/
theorem dimm_record_set_frame (s : memdb) (a : Nat) (md md' : memdimm) (so' ch' di' : Int)
    (ha : s.heap[a]? = some md) (hk : key_of md' = key_of md)
    (hne : (so', ch', di') ≠ key_of md) :
    dimm_record { s with heap := s.heap.set a md' } so' ch' di' = dimm_record s so' ch' di' := by
  unfold dimm_record
  simp only
  rw [find_memdimm_set _ _ _ _ _ _ md md' ha hk]
  cases hf' : find_memdimm s.heap so' ch' di'
      (s.md_dimms (dimmhash (to_unsigned so') di' (to_unsigned ch'))) with
  | none => rfl
  | some b =>
    simp only
    obtain ⟨_, mdb, hmdb, hkb⟩ := find_memdimm_some hf'
    have hab : a ≠ b := by
      intro hab
      subst hab
      rw [ha] at hmdb
      cases hmdb
      exact hne hkb.symm
    rw [List.getElem?_set_ne hab]

/-- After a write to the record that `get_memdimm` returned for a key, the record of the
key is the one written. -/
theorem dimm_record_set_self (s : memdb) (a : Nat) (md md' : memdimm) (so ch di : Int)
    (hf : find_memdimm s.heap so ch di
      (s.md_dimms (dimmhash (to_unsigned so) di (to_unsigned ch))) = some a)
    (ha : s.heap[a]? = some md) (hk : key_of md' = key_of md) :
    dimm_record { s with heap := s.heap.set a md' } so ch di = some md' := by
  unfold dimm_record
  simp only
  rw [find_memdimm_set _ _ _ _ _ _ md md' ha hk, hf]
  simp only
  rw [List.getElem?_set_self (find_memdimm_valid hf)]

/-! ## Theorems: prefill -/

theorem dimm_record_some_hit (x : Ext) (so ch di : Int) (s : memdb) (md : memdimm)
    (h : dimm_record s so ch di = some md) :
    ∃ a, get_memdimm x so ch di s = (s, a) ∧ s.heap[a]? = some md := by
  unfold dimm_record at h
  cases hf : find_memdimm s.heap so ch di
      (s.md_dimms (dimmhash (to_unsigned so) di (to_unsigned ch))) with
  | none =>
    rw [hf] at h
    cases h
  | some a =>
    rw [hf] at h
    exact ⟨a, get_memdimm_hit hf, h⟩

theorem prefill_entry_fail (x : Ext) (f : Firmware) (i : Nat) (d : dmi_memdev) (s : memdb)
    (m : Nat) (h : entry_key f d = none) : prefill_entry x f i d s m = (s, m + 1) := by
  unfold entry_key at h
  cases hv : f.sscanf_node (bank_locator_tail d.bank_locator) with
  | none => simp only [prefill_entry, hv]
  | some v =>
    rw [hv] at h
    cases h

theorem prefill_entry_dup (x : Ext) (f : Firmware) (i : Nat) (d : dmi_memdev) (s : memdb)
    (m : Nat) (k : Int × Int × Int) (h : entry_key f d = some k)
    (hm : has_memdev s k = true) : prefill_entry x f i d s m = (s, m + 1) := by
  unfold entry_key at h
  cases hv : f.sscanf_node (bank_locator_tail d.bank_locator) with
  | none =>
    rw [hv] at h
    cases h
  | some v =>
    rw [hv] at h
    simp only [Option.some.injEq] at h
    subst h
    unfold has_memdev at hm
    simp only [prefill_entry, hv] at hm ⊢
    cases hr : dimm_record s (to_int v.1) (to_int v.2.1) (to_int v.2.2) with
    | none =>
      rw [hr] at hm
      cases hm
    | some md =>
      rw [hr] at hm
      simp only at hm
      obtain ⟨a, hget, ha⟩ := dimm_record_some_hit x _ _ _ s md hr
      rw [hget]
      simp only
      have hgetD : s.heap.getD a memdimm_zero = md := by
        rw [List.getD_eq_getElem?_getD, ha]
        rfl
      rw [hgetD]
      have hne : md.memdev ≠ none := by
        intro hnone
        rw [hnone] at hm
        cases hm
      rw [if_pos hne]

theorem prefill_entry_attach (x : Ext) (f : Firmware) (i : Nat) (d : dmi_memdev) (s : memdb)
    (m : Nat) (k : Int × Int × Int) (h : entry_key f d = some k)
    (hm : has_memdev s k = false) :
    (prefill_entry x f i d s m).2 = m ∧
    (∃ md0, (dimm_record s k.1 k.2.1 k.2.2 = some md0 ∨
        (dimm_record s k.1 k.2.1 k.2.2 = none ∧ md0 = fresh_memdimm x k.1 k.2.1 k.2.2)) ∧
      md0.memdev = none ∧
      dimm_record (prefill_entry x f i d s m).1 k.1 k.2.1 k.2.2 =
        some { md0 with memdev := some i, location := some d.bank_locator,
                        name := d.device_locator }) ∧
    (∀ k' : Int × Int × Int, k' ≠ k →
      dimm_record (prefill_entry x f i d s m).1 k'.1 k'.2.1 k'.2.2 =
        dimm_record s k'.1 k'.2.1 k'.2.2) := by
  unfold entry_key at h
  cases hv : f.sscanf_node (bank_locator_tail d.bank_locator) with
  | none =>
    rw [hv] at h
    cases h
  | some v =>
    rw [hv] at h
    simp only [Option.some.injEq] at h
    subst h
    obtain ⟨hfind, md, hmd, hk, hrec⟩ :=
      get_memdimm_record x (to_int v.1) (to_int v.2.1) (to_int v.2.2) s
    have hgetD : (get_memdimm x (to_int v.1) (to_int v.2.1) (to_int v.2.2) s).1.heap.getD
        (get_memdimm x (to_int v.1) (to_int v.2.1) (to_int v.2.2) s).2 memdimm_zero = md := by
      rw [List.getD_eq_getElem?_getD, hmd]
      rfl
    have hnone : md.memdev = none := by
      rcases hrec with hrec | ⟨_, hrec⟩
      · unfold has_memdev at hm
        simp only [hrec] at hm
        cases hmm : md.memdev with
        | none => rfl
        | some _ =>
          rw [hmm] at hm
          cases hm
      · rw [hrec]
        rfl
    simp only [prefill_entry, hv]
    rw [hgetD]
    have hif : ¬ md.memdev ≠ none := by
      intro hc
      exact hc hnone
    rw [if_neg hif]
    refine ⟨rfl, ⟨md, hrec, hnone, ?_⟩, ?_⟩
    · rw [dimm_record_set_self _ _ md _ _ _ _ hfind hmd]
      rfl
    · intro k' hk'
      rw [dimm_record_set_frame _ _ md _ _ _ _ hmd]
      · exact dimm_record_get_frame x _ _ _ _ _ _ s hk'
      · rfl
      · rw [hk]
        exact hk'

theorem has_memdev_attach (x : Ext) (f : Firmware) (i : Nat) (d : dmi_memdev) (s : memdb)
    (m : Nat) (k : Int × Int × Int) (h : entry_key f d = some k)
    (hm : has_memdev s k = false) :
    has_memdev (prefill_entry x f i d s m).1 =
      fun k' => decide (k' = k) || has_memdev s k' := by
  obtain ⟨_, ⟨md0, _, _, hrec⟩, hframe⟩ := prefill_entry_attach x f i d s m k h hm
  funext k'
  by_cases hk : k' = k
  · subst hk
    simp [has_memdev, hrec]
  · simp only [has_memdev, hframe k' hk, hk, decide_False, Bool.false_or]

theorem prefill_loop_missed (x : Ext) (f : Firmware) (ds : List dmi_memdev) :
    ∀ (i : Nat) (s : memdb) (m : Nat),
      (prefill_loop x f i ds s m).2 =
        m + missed_count (has_memdev s) (ds.map (entry_key f)) := by
  induction ds with
  | nil =>
    intro i s m
    simp [prefill_loop, missed_count]
  | cons d ds ih =>
    intro i s m
    simp only [prefill_loop, List.map_cons]
    cases hk : entry_key f d with
    | none =>
      rw [prefill_entry_fail x f i d s m hk, ih]
      simp only [missed_count]
      omega
    | some k =>
      cases hm : has_memdev s k with
      | true =>
        rw [prefill_entry_dup x f i d s m k hk hm, ih]
        simp only [missed_count, hm, if_true]
        omega
      | false =>
        rw [ih, has_memdev_attach x f i d s m k hk hm,
          (prefill_entry_attach x f i d s m k hk hm).1]
        simp [missed_count, hm]

theorem prefill_loop_record (x : Ext) (f : Firmware) (k : Int × Int × Int)
    (ds : List dmi_memdev) :
    ∀ (i : Nat) (s : memdb) (m : Nat),
      dimm_record (prefill_loop x f i ds s m).1 k.1 k.2.1 k.2.2 =
        if has_memdev s k = true then dimm_record s k.1 k.2.1 k.2.2
        else match first_entry f k i ds with
          | none => dimm_record s k.1 k.2.1 k.2.2
          | some e => some { record_or_fresh x s k with
              memdev := some e.1, location := some e.2.bank_locator,
              name := e.2.device_locator } := by
  induction ds with
  | nil =>
    intro i s m
    simp [prefill_loop, first_entry]
  | cons d ds ih =>
    intro i s m
    simp only [prefill_loop]
    cases hk : entry_key f d with
    | none =>
      rw [prefill_entry_fail x f i d s m hk, ih]
      simp [first_entry, hk]
    | some k1 =>
      cases hm : has_memdev s k1 with
      | true =>
        rw [prefill_entry_dup x f i d s m k1 hk hm, ih]
        by_cases hkk : k1 = k
        · subst hkk
          simp [hm]
        · simp [first_entry, hk, hkk]
      | false =>
        obtain ⟨_, ⟨md0, hmd0, _, hrec⟩, hframe⟩ := prefill_entry_attach x f i d s m k1 hk hm
        rw [ih, has_memdev_attach x f i d s m k1 hk hm]
        by_cases hkk : k1 = k
        · subst hkk
          have hrf : record_or_fresh x s k1 = md0 := by
            unfold record_or_fresh
            rcases hmd0 with h1 | ⟨h1, h2⟩
            · rw [h1]
            · rw [h1, h2]
          simp [hm, first_entry, hk, hrec, hrf]
        · have hkk' : k ≠ k1 := fun h => hkk h.symm
          have hrf : record_or_fresh x (prefill_entry x f i d s m).1 k = record_or_fresh x s k := by
            unfold record_or_fresh
            rw [hframe k hkk']
          simp only [hkk', decide_False, Bool.false_or, hframe k hkk', first_entry, hk,
            Option.some.injEq, hkk, if_false, hrf]

theorem prefill_entry_conf (x : Ext) (f : Firmware) (i : Nat) (d : dmi_memdev) (s : memdb)
    (m : Nat) :
    (prefill_entry x f i d s m).1.memdb_enabled = s.memdb_enabled ∧
    (prefill_entry x f i d s m).1.initialized = s.initialized ∧
    (prefill_entry x f i d s m).1.ce_bucket_conf = s.ce_bucket_conf ∧
    (prefill_entry x f i d s m).1.uc_bucket_conf = s.uc_bucket_conf := by
  cases hv : f.sscanf_node (bank_locator_tail d.bank_locator) with
  | none => simp only [prefill_entry, hv, and_self]
  | some v =>
    obtain ⟨h1, h2, h3, h4⟩ := get_memdimm_conf x (to_int v.1) (to_int v.2.1) (to_int v.2.2) s
    simp only [prefill_entry, hv]
    split_ifs
    · exact ⟨h3, h4, h1, h2⟩
    · exact ⟨h3, h4, h1, h2⟩

theorem prefill_loop_conf (x : Ext) (f : Firmware) (ds : List dmi_memdev) :
    ∀ (i : Nat) (s : memdb) (m : Nat),
      (prefill_loop x f i ds s m).1.memdb_enabled = s.memdb_enabled ∧
      (prefill_loop x f i ds s m).1.initialized = s.initialized ∧
      (prefill_loop x f i ds s m).1.ce_bucket_conf = s.ce_bucket_conf ∧
      (prefill_loop x f i ds s m).1.uc_bucket_conf = s.uc_bucket_conf := by
  induction ds with
  | nil =>
    intro i s m
    simp [prefill_loop]
  | cons d ds ih =>
    intro i s m
    simp only [prefill_loop]
    obtain ⟨h1, h2, h3, h4⟩ := prefill_entry_conf x f i d s m
    obtain ⟨g1, g2, g3, g4⟩ := ih (i + 1) (prefill_entry x f i d s m).1 (prefill_entry x f i d s m).2
    exact ⟨g1.trans h1, g2.trans h2, g3.trans h3, g4.trans h4⟩

theorem memdb_config_registry (f : Firmware) (s : memdb) :
    (memdb_config f s).heap = s.heap ∧ (memdb_config f s).md_dimms = s.md_dimms ∧
    (memdb_config f s).md_numdimms = s.md_numdimms ∧
    (memdb_config f s).initialized = s.initialized ∧
    (memdb_config f s).memdb_enabled =
      (if f.config_tracking < 0 then f.memory_error_support else f.config_tracking) := by
  unfold memdb_config
  by_cases h : f.config_tracking < 0
  · simp [h]
  · simp [h]

theorem prefill_memdb_latched (x : Ext) (f : Firmware) (s : memdb) (h : s.initialized ≠ 0) :
    prefill_memdb x f s = (s, []) := by
  simp [prefill_memdb, h]

/-- After `prefill_memdb` either the latch is set, or tracking is disabled and the call
only ran the configuration step. -/
theorem prefill_memdb_cases (x : Ext) (f : Firmware) (s : memdb) :
    (prefill_memdb x f s).1.initialized ≠ 0 ∨
    ((prefill_memdb x f s).1 = memdb_config f s ∧ (memdb_config f s).memdb_enabled = 0 ∧
      s.initialized = 0) := by
  by_cases hi : s.initialized ≠ 0
  · left
    rw [prefill_memdb_latched x f s hi]
    exact hi
  · have hi0 : s.initialized = 0 := by
      by_contra hc
      exact hi hc
    by_cases he : (memdb_config f s).memdb_enabled = 0
    · right
      simp [prefill_memdb, hi0, he]
    · left
      simp only [prefill_memdb, hi0, ne_eq, not_true_eq_false, if_false, he]
      by_cases hp : f.config_prepopulate = 0
      · simp [hp]
      · by_cases ho : f.opendmi < 0
        · simp [hp, ho]
        · simp only [hp, ho, if_false]
          rw [(prefill_loop_conf x f _ _ _ _).2.1]
          simp

/-- C14: calling `prefill_memdb` a second time leaves the registry (the heap of records
with their counters and firmware metadata, the chains and `md_numdimms`) as the first
call left it; and when tracking is enabled after the first call, the second call
changes nothing in the state and writes no diagnostic. -/
theorem prefill_memdb_twice (x : Ext) (f : Firmware) (s : memdb) :
    (prefill_memdb x f (prefill_memdb x f s).1).1.heap = (prefill_memdb x f s).1.heap ∧
    (prefill_memdb x f (prefill_memdb x f s).1).1.md_dimms = (prefill_memdb x f s).1.md_dimms ∧
    (prefill_memdb x f (prefill_memdb x f s).1).1.md_numdimms =
      (prefill_memdb x f s).1.md_numdimms ∧
    ((prefill_memdb x f s).1.memdb_enabled ≠ 0 →
      prefill_memdb x f (prefill_memdb x f s).1 = ((prefill_memdb x f s).1, [])) := by
  rcases prefill_memdb_cases x f s with h | ⟨h1, h2, h3⟩
  · rw [prefill_memdb_latched x f _ h]
    exact ⟨rfl, rfl, rfl, fun _ => rfl⟩
  · have hi : (memdb_config f s).initialized = 0 := by
      rw [(memdb_config_registry f s).2.2.2.1]
      exact h3
    have he : (memdb_config f (memdb_config f s)).memdb_enabled = 0 := by
      rw [(memdb_config_registry f _).2.2.2.2, ← (memdb_config_registry f s).2.2.2.2]
      exact h2
    have h2nd : prefill_memdb x f (memdb_config f s) = (memdb_config f (memdb_config f s), []) := by
      simp [prefill_memdb, hi, he]
    rw [h1, h2nd]
    obtain ⟨g1, g2, g3, _, _⟩ := memdb_config_registry f (memdb_config f s)
    refine ⟨g1, g2, g3, fun hne => absurd h2 hne⟩

/-! ## Theorems: the record count -/

theorem bucket_of_key {md md' : memdimm} (h : key_of md' = key_of md) :
    bucket_of md' = bucket_of md := by
  simp only [key_of, Prod.mk.injEq] at h
  simp [bucket_of, h.1, h.2.1, h.2.2]

theorem WF_congr (s s' : memdb) (h1 : s'.heap = s.heap) (h2 : s'.md_dimms = s.md_dimms)
    (h3 : s'.md_numdimms = s.md_numdimms) (hs : WF s) : WF s' := by
  constructor
  · intro h a ha
    rw [h2] at ha
    rw [h1]
    exact hs.chain_valid h a ha
  · intro a md hmd
    rw [h1] at hmd
    rw [h2]
    exact hs.linked a md hmd
  · intro a b mda mdb ha hb
    rw [h1] at ha hb
    exact hs.keys_inj a b mda mdb ha hb
  · intro h
    rw [h2]
    exact hs.chain_nodup h
  · rw [h3, h1]
    exact hs.numdimms

theorem getElem?_set_cases (heap : List memdimm) (a b : Nat) (md md' md1 : memdimm)
    (ha : heap[a]? = some md) (h : (heap.set a md')[b]? = some md1) :
    (b = a ∧ md1 = md') ∨ (b ≠ a ∧ heap[b]? = some md1) := by
  have hlt : a < heap.length := by
    by_contra hc
    rw [List.getElem?_eq_none (by omega)] at ha
    cases ha
  by_cases hab : a = b
  · subst hab
    rw [List.getElem?_set_self hlt] at h
    left
    exact ⟨rfl, (Option.some.inj h).symm⟩
  · rw [List.getElem?_set_ne hab] at h
    right
    exact ⟨fun hba => hab hba.symm, h⟩

/-- A write to a record that keeps its key keeps the registry well formed. -/
theorem WF_set (s : memdb) (a : Nat) (md md' : memdimm) (hs : WF s)
    (ha : s.heap[a]? = some md) (hk : key_of md' = key_of md) :
    WF { s with heap := s.heap.set a md' } := by
  have hlt : a < s.heap.length := by
    by_contra hc
    rw [List.getElem?_eq_none (by omega)] at ha
    cases ha
  constructor
  · intro h b hb
    simp only at hb ⊢
    obtain ⟨mdb, hmdb, hbk⟩ := hs.chain_valid h b hb
    by_cases hab : a = b
    · subst hab
      rw [ha] at hmdb
      cases hmdb
      exact ⟨md', List.getElem?_set_self hlt, (bucket_of_key hk).trans hbk⟩
    · exact ⟨mdb, by rw [List.getElem?_set_ne hab]; exact hmdb, hbk⟩
  · intro b md1 hmd1
    simp only at hmd1 ⊢
    rcases getElem?_set_cases s.heap a b md md' md1 ha hmd1 with ⟨h1, h2⟩ | ⟨_, h2⟩
    · subst h1 h2
      rw [bucket_of_key hk]
      exact hs.linked b md ha
    · exact hs.linked b md1 h2
  · intro b c mdb mdc hb hc hkk
    simp only at hb hc
    rcases getElem?_set_cases s.heap a b md md' mdb ha hb with ⟨h1, h2⟩ | ⟨_, h2⟩ <;>
      rcases getElem?_set_cases s.heap a c md md' mdc ha hc with ⟨h3, h4⟩ | ⟨_, h4⟩
    · rw [h1, h3]
    · subst h1 h2
      exact hs.keys_inj b c md mdc ha h4 (hk.symm.trans hkk)
    · subst h3 h4
      exact hs.keys_inj b c mdb md h2 ha (hkk.trans hk)
    · exact hs.keys_inj b c mdb mdc h2 h4 hkk
  · intro h
    exact hs.chain_nodup h
  · simp only [List.length_set]
    exact hs.numdimms

theorem bucket_of_lt (md : memdimm) : bucket_of md < SHASH := by
  unfold bucket_of dimmhash
  exact Nat.mod_lt _ (by decide)

theorem mem_collect_dimms (s : memdb) (hs : WF s) (a : Nat) :
    a ∈ collect_dimms s ↔ a < s.heap.length := by
  unfold collect_dimms
  rw [List.mem_flatMap]
  constructor
  · rintro ⟨h, _, ha⟩
    obtain ⟨md, hmd, _⟩ := hs.chain_valid h a ha
    by_contra hc
    rw [List.getElem?_eq_none (by omega)] at hmd
    cases hmd
  · intro hlt
    have hmd : s.heap[a]? = some s.heap[a] := List.getElem?_eq_getElem hlt
    exact ⟨bucket_of s.heap[a], List.mem_range.2 (bucket_of_lt _), hs.linked a _ hmd⟩

theorem collect_dimms_nodup (s : memdb) (hs : WF s) : (collect_dimms s).Nodup := by
  unfold collect_dimms
  rw [List.nodup_flatMap]
  constructor
  · intro h _
    exact hs.chain_nodup h
  · refine List.Nodup.pairwise_of_forall_ne (List.nodup_range SHASH) ?_
    intro i _ j _ hij
    simp only [Function.onFun]
    rw [List.disjoint_left]
    intro a hai haj
    obtain ⟨m1, hm1, hb1⟩ := hs.chain_valid i a hai
    obtain ⟨m2, hm2, hb2⟩ := hs.chain_valid j a haj
    rw [hm1] at hm2
    cases hm2
    exact hij (hb1.symm.trans hb2)

/-- In a well-formed registry the chains hold as many addresses as there are records,
which is `md_numdimms`. -/
theorem collect_dimms_length (s : memdb) (hs : WF s) :
    ((collect_dimms s).length : Int) = s.md_numdimms ∧
    (collect_dimms s).length = s.heap.length := by
  have hperm : (collect_dimms s).Perm (List.range s.heap.length) := by
    rw [List.perm_ext_iff_of_nodup (collect_dimms_nodup s hs) (List.nodup_range _)]
    intro a
    rw [mem_collect_dimms s hs a, List.mem_range]
  have hlen : (collect_dimms s).length = s.heap.length := by
    rw [hperm.length_eq, List.length_range]
  exact ⟨by rw [hlen, hs.numdimms], hlen⟩

theorem dump_memory_errors_some (x : Ext) (flags : Nat) (s : memdb) (hs : WF s) :
    ∃ out, dump_memory_errors x flags s = some out := by
  unfold dump_memory_errors
  have h1 := (collect_dimms_length s hs).1
  have h2 : (collect_dimms s).all (fun a => decide (a < s.heap.length)) = true := by
    rw [List.all_eq_true]
    intro a ha
    simp only [decide_eq_true_eq]
    exact (mem_collect_dimms s hs a).1 ha
  simp only [h1, h2, and_self, if_true]
  exact ⟨_, rfl⟩

theorem registry_le_refl (s : memdb) : registry_le s s :=
  ⟨le_refl _, fun _ md h => ⟨md, h, rfl⟩⟩

theorem registry_le_trans {s1 s2 s3 : memdb} (h12 : registry_le s1 s2)
    (h23 : registry_le s2 s3) : registry_le s1 s3 := by
  refine ⟨le_trans h12.1 h23.1, ?_⟩
  intro a md hmd
  obtain ⟨md2, h2, k2⟩ := h12.2 a md hmd
  obtain ⟨md3, h3, k3⟩ := h23.2 a md2 h2
  exact ⟨md3, h3, k3.trans k2⟩

theorem registry_le_set (s : memdb) (a : Nat) (md md' : memdimm)
    (ha : s.heap[a]? = some md) (hk : key_of md' = key_of md) :
    registry_le s { s with heap := s.heap.set a md' } := by
  have hlt : a < s.heap.length := by
    by_contra hc
    rw [List.getElem?_eq_none (by omega)] at ha
    cases ha
  refine ⟨le_refl _, ?_⟩
  intro b mdb hb
  by_cases hab : a = b
  · subst hab
    rw [ha] at hb
    cases hb
    exact ⟨md', List.getElem?_set_self hlt, hk⟩
  · exact ⟨mdb, by simp only; rw [List.getElem?_set_ne hab]; exact hb, rfl⟩

theorem no_memdev_set (s : memdb) (a : Nat) (md md' : memdimm)
    (ha : s.heap[a]? = some md) (hm : md'.memdev = none) (hs : no_memdev s) :
    no_memdev { s with heap := s.heap.set a md' } := by
  intro b mdb hb
  rcases getElem?_set_cases s.heap a b md md' mdb ha hb with ⟨_, h2⟩ | ⟨_, h2⟩
  · rw [h2]
    exact hm
  · exact hs b mdb h2

/-- What `get_memdimm` does to the registry: the state is unchanged on a hit; on a miss
the count grows by one and one record is appended. -/
theorem get_memdimm_count (x : Ext) (so ch di : Int) (s : memdb) :
    (∀ a, find_memdimm s.heap so ch di
        (s.md_dimms (dimmhash (to_unsigned so) di (to_unsigned ch))) = some a →
      (get_memdimm x so ch di s).1 = s) ∧
    (find_memdimm s.heap so ch di
        (s.md_dimms (dimmhash (to_unsigned so) di (to_unsigned ch))) = none →
      (get_memdimm x so ch di s).1.md_numdimms = s.md_numdimms + 1 ∧
      (get_memdimm x so ch di s).1.heap = s.heap ++ [fresh_memdimm x so ch di]) := by
  constructor
  · intro a hf
    rw [get_memdimm_hit hf]
  · intro hf
    rw [get_memdimm_miss hf]
    exact ⟨rfl, rfl⟩

theorem get_memdimm_le (x : Ext) (so ch di : Int) (s : memdb) :
    registry_le s (get_memdimm x so ch di s).1 ∧
    (no_memdev s → no_memdev (get_memdimm x so ch di s).1) := by
  cases hf : find_memdimm s.heap so ch di
      (s.md_dimms (dimmhash (to_unsigned so) di (to_unsigned ch))) with
  | some a =>
    rw [get_memdimm_hit hf]
    exact ⟨registry_le_refl s, fun h => h⟩
  | none =>
    rw [get_memdimm_miss hf]
    constructor
    · refine ⟨by simp, ?_⟩
      intro a md hmd
      have hlt : a < s.heap.length := by
        by_contra hc
        rw [List.getElem?_eq_none (by omega)] at hmd
        cases hmd
      exact ⟨md, by simp only; rw [List.getElem?_append_left hlt]; exact hmd, rfl⟩
    · intro hno a md hmd
      simp only at hmd
      rcases Nat.lt_trichotomy a s.heap.length with hlt | heq | hgt
      · rw [List.getElem?_append_left hlt] at hmd
        exact hno a md hmd
      · subst heq
        simp at hmd
        rw [← hmd]
        rfl
      · rw [List.getElem?_eq_none (by simp; omega)] at hmd
        cases hmd

/-- A `memory_error` call that returns keeps the registry well formed, loses no record
and attaches no firmware reference. -/
theorem memory_error_inv (x : Ext) (now : Nat) (m : mce) (ch dimm : Int) (n : Nat)
    (s s' : memdb) (tr : List effect) (h : memory_error x now m ch dimm n s = some (s', tr))
    (hs : WF s) :
    WF s' ∧ registry_le s s' ∧ (no_memdev s → no_memdev s') := by
  by_cases hen : s.memdb_enabled = 0
  · simp only [memory_error, hen, if_true, Option.some.injEq, Prod.mk.injEq] at h
    rw [← h.1]
    exact ⟨hs, registry_le_refl s, fun h => h⟩
  · rw [memory_error_enabled x now m ch dimm n s hen] at h
    simp only [Option.some.injEq, Prod.mk.injEq] at h
    obtain ⟨hwf1, _, md0, hmd0, _⟩ := get_memdimm_spec x (to_int m.socketid) ch dimm s hs
    obtain ⟨hle1, hno1⟩ := get_memdimm_le x (to_int m.socketid) ch dimm s
    have hgetD : (get_memdimm x (to_int m.socketid) ch dimm s).1.heap.getD
        (get_memdimm x (to_int m.socketid) ch dimm s).2 memdimm_zero = md0 := by
      rw [List.getD_eq_getElem?_getD, hmd0]
      rfl
    rw [hgetD] at h
    obtain ⟨hpk, _, _, hpm, _, _⟩ := primary_step_fields x
      (get_memdimm x (to_int m.socketid) ch dimm s).1 (event_time now m) m
      (get_memdimm x (to_int m.socketid) ch dimm s).2
      (lost_step x (get_memdimm x (to_int m.socketid) ch dimm s).1 (event_time now m) n
        (get_memdimm x (to_int m.socketid) ch dimm s).2 md0).1
    obtain ⟨hlk, _, _, _, hlm, _⟩ := lost_step_fields x
      (get_memdimm x (to_int m.socketid) ch dimm s).1 (event_time now m) n
      (get_memdimm x (to_int m.socketid) ch dimm s).2 md0
    rw [← h.1]
    refine ⟨WF_set _ _ md0 _ hwf1 hmd0 (hpk.trans hlk),
      registry_le_trans hle1 (registry_le_set _ _ md0 _ hmd0 (hpk.trans hlk)), ?_⟩
    intro hno
    have hno' := hno1 hno
    exact no_memdev_set _ _ md0 _ hmd0 (by rw [hpm, hlm]; exact hno' _ md0 hmd0) hno'

theorem prefill_entry_inv (x : Ext) (f : Firmware) (i : Nat) (d : dmi_memdev) (s : memdb)
    (m : Nat) (hs : WF s) :
    WF (prefill_entry x f i d s m).1 ∧ registry_le s (prefill_entry x f i d s m).1 := by
  cases hv : f.sscanf_node (bank_locator_tail d.bank_locator) with
  | none =>
    simp only [prefill_entry, hv]
    exact ⟨hs, registry_le_refl s⟩
  | some v =>
    obtain ⟨hwf1, _, md0, hmd0, _⟩ :=
      get_memdimm_spec x (to_int v.1) (to_int v.2.1) (to_int v.2.2) s hs
    obtain ⟨hle1, _⟩ := get_memdimm_le x (to_int v.1) (to_int v.2.1) (to_int v.2.2) s
    have hgetD : (get_memdimm x (to_int v.1) (to_int v.2.1) (to_int v.2.2) s).1.heap.getD
        (get_memdimm x (to_int v.1) (to_int v.2.1) (to_int v.2.2) s).2 memdimm_zero = md0 := by
      rw [List.getD_eq_getElem?_getD, hmd0]
      rfl
    simp only [prefill_entry, hv]
    rw [hgetD]
    split_ifs
    · exact ⟨hwf1, hle1⟩
    · exact ⟨WF_set _ _ md0 _ hwf1 hmd0 rfl,
        registry_le_trans hle1 (registry_le_set _ _ md0 _ hmd0 rfl)⟩

theorem prefill_loop_inv (x : Ext) (f : Firmware) (ds : List dmi_memdev) :
    ∀ (i : Nat) (s : memdb) (m : Nat), WF s →
      WF (prefill_loop x f i ds s m).1 ∧ registry_le s (prefill_loop x f i ds s m).1 := by
  induction ds with
  | nil =>
    intro i s m hs
    exact ⟨hs, registry_le_refl s⟩
  | cons d ds ih =>
    intro i s m hs
    simp only [prefill_loop]
    obtain ⟨h1, h2⟩ := prefill_entry_inv x f i d s m hs
    obtain ⟨h3, h4⟩ := ih (i + 1) (prefill_entry x f i d s m).1 (prefill_entry x f i d s m).2 h1
    exact ⟨h3, registry_le_trans h2 h4⟩

/-- A `prefill_memdb` call keeps the registry well formed and loses no record; a
registry that is still unlatched afterwards has its heap untouched. -/
theorem prefill_memdb_inv (x : Ext) (f : Firmware) (s : memdb) (hs : WF s) :
    WF (prefill_memdb x f s).1 ∧ registry_le s (prefill_memdb x f s).1 ∧
    ((prefill_memdb x f s).1.initialized = 0 → (prefill_memdb x f s).1.heap = s.heap) := by
  obtain ⟨c1, c2, c3, c4, _⟩ := memdb_config_registry f s
  have hwfc : WF (memdb_config f s) := WF_congr s _ c1 c2 c3 hs
  have hlec : registry_le s (memdb_config f s) := by
    refine ⟨by rw [c3], ?_⟩
    intro a md hmd
    exact ⟨md, by rw [c1]; exact hmd, rfl⟩
  by_cases hi : s.initialized ≠ 0
  · rw [prefill_memdb_latched x f s hi]
    exact ⟨hs, registry_le_refl s, fun _ => rfl⟩
  · have hi0 : s.initialized = 0 := by
      by_contra hc
      exact hi hc
    by_cases he : (memdb_config f s).memdb_enabled = 0
    · simp only [prefill_memdb, hi0, ne_eq, not_true_eq_false, if_false, he, if_true]
      exact ⟨hwfc, hlec, fun _ => c1⟩
    · have hwf1 : WF { memdb_config f s with initialized := 1 } :=
        WF_congr (memdb_config f s) _ rfl rfl rfl hwfc
      have hle1 : registry_le s { memdb_config f s with initialized := 1 } :=
        registry_le_trans hlec ⟨le_refl _, fun a md hmd => ⟨md, hmd, rfl⟩⟩
      simp only [prefill_memdb, hi0, ne_eq, not_true_eq_false, if_false, he]
      by_cases hp : f.config_prepopulate = 0
      · simp only [hp, if_true]
        exact ⟨hwf1, hle1, fun h => by simp at h⟩
      · by_cases ho : f.opendmi < 0
        · simp only [hp, ho, if_true, if_false]
          exact ⟨hwf1, hle1, fun h => by simp at h⟩
        · simp only [hp, ho, if_false]
          obtain ⟨h3, h4⟩ := prefill_loop_inv x f f.dmi_dimms 0
            { memdb_config f s with initialized := 1 } 0 hwf1
          refine ⟨h3, registry_le_trans hle1 h4, ?_⟩
          intro h
          rw [(prefill_loop_conf x f _ _ _ _).2.1] at h
          simp at h

theorem step_inv (s s' : memdb) (h : step s s') (hs : WF s)
    (hno : s.initialized = 0 → no_memdev s) :
    WF s' ∧ registry_le s s' ∧ (s'.initialized = 0 → no_memdev s') := by
  cases h with
  | get x so ch di =>
    refine ⟨(get_memdimm_spec x so ch di s hs).1, (get_memdimm_le x so ch di s).1, ?_⟩
    intro hi
    rw [(get_memdimm_conf x so ch di s).2.2.2] at hi
    exact (get_memdimm_le x so ch di s).2 (hno hi)
  | error x now m ch dimm n _ _ tr h =>
    obtain ⟨h1, h2, h3⟩ := memory_error_inv x now m ch dimm n s s' tr h hs
    refine ⟨h1, h2, ?_⟩
    intro hi
    rw [(memory_error_conf x now m ch dimm n s s' tr h).2.2.2] at hi
    exact h3 (hno hi)
  | prefill x f =>
    obtain ⟨h1, h2, h3⟩ := prefill_memdb_inv x f s hs
    refine ⟨h1, h2, ?_⟩
    intro hi
    have hheap := h3 hi
    have hi0 : s.initialized = 0 := by
      by_contra hc
      rw [prefill_memdb_latched x f s hc] at hi
      exact hc hi
    intro a md hmd
    rw [hheap] at hmd
    exact hno hi0 a md hmd

theorem reachable_inv (s : memdb) (h : reachable s) :
    WF s ∧ (s.initialized = 0 → no_memdev s) := by
  induction h with
  | empty ce uc en =>
    refine ⟨WF_empty ce uc en, ?_⟩
    intro _ a md hmd
    simp [memdb_empty] at hmd
  | next s s' _ hstep ih =>
    obtain ⟨h1, _, h3⟩ := step_inv s s' hstep ih.1 ih.2
    exact ⟨h1, h3⟩

theorem get_memdimm_spec_heap (x : Ext) (so ch di : Int) (s : memdb) :
    ∃ t, (get_memdimm x so ch di s).1.heap = s.heap ++ t := by
  cases hf : find_memdimm s.heap so ch di
      (s.md_dimms (dimmhash (to_unsigned so) di (to_unsigned ch))) with
  | some a =>
    rw [get_memdimm_hit hf]
    exact ⟨[], by simp⟩
  | none =>
    rw [get_memdimm_miss hf]
    exact ⟨_, rfl⟩

theorem dimm_record_congr (s s' : memdb) (h1 : s'.heap = s.heap) (h2 : s'.md_dimms = s.md_dimms)
    (so ch di : Int) : dimm_record s' so ch di = dimm_record s so ch di := by
  unfold dimm_record
  rw [h1, h2]

theorem has_memdev_of_no_memdev (s : memdb) (h : no_memdev s) (k : Int × Int × Int) :
    has_memdev s k = false := by
  unfold has_memdev
  cases hr : dimm_record s k.1 k.2.1 k.2.2 with
  | none => rfl
  | some md =>
    obtain ⟨a, _, ha⟩ := dimm_record_some_hit sample_ext _ _ _ s md hr
    simp only [h a md ha, Option.isSome_none]

/-- When `prefill_memdb` reaches its loop, it returns the state the loop leaves and the
one diagnostic iff the loop counted a miss. -/
theorem prefill_memdb_loop (x : Ext) (f : Firmware) (s : memdb) (hi : s.initialized = 0)
    (he : (memdb_config f s).memdb_enabled ≠ 0) (hp : f.config_prepopulate ≠ 0)
    (ho : ¬ f.opendmi < 0) :
    prefill_memdb x f s =
      ((prefill_loop x f 0 f.dmi_dimms { memdb_config f s with initialized := 1 } 0).1,
        if (prefill_loop x f 0 f.dmi_dimms { memdb_config f s with initialized := 1 } 0).2 ≠ 0
          then ["failed to prefill DIMM database from DMI data"] else []) := by
  simp only [prefill_memdb, hi, ne_eq, not_true_eq_false, if_false, he, hp, ho]

/-- C15: an entry that parses to a key whose record has a firmware reference leaves the
state as it is and adds one to the missed count. When `prefill_memdb` runs its loop on a
reachable registry, afterwards the record of every key some entry parses to is its
record from before (a fresh one if there was none) with the firmware reference, location
and name of the first such entry in list order, the record of any other key is as
before, and the diagnostic is written iff the number of entries that do not parse or
repeat the key of an earlier entry is non-zero. -/
theorem prefill_memdb_metadata (x : Ext) (f : Firmware) (s : memdb) (hr : reachable s)
    (hi : s.initialized = 0) (he : (memdb_config f s).memdb_enabled ≠ 0)
    (hp : f.config_prepopulate ≠ 0) (ho : ¬ f.opendmi < 0) :
    (∀ (s0 : memdb) (i : Nat) (d : dmi_memdev) (m : Nat) (k : Int × Int × Int),
      entry_key f d = some k → has_memdev s0 k = true →
        prefill_entry x f i d s0 m = (s0, m + 1)) ∧
    (∀ (k : Int × Int × Int) (e : Nat × dmi_memdev),
      first_entry f k 0 f.dmi_dimms = some e →
        dimm_record (prefill_memdb x f s).1 k.1 k.2.1 k.2.2 =
          some { record_or_fresh x s k with
            memdev := some e.1, location := some e.2.bank_locator,
            name := e.2.device_locator }) ∧
    (∀ k : Int × Int × Int, first_entry f k 0 f.dmi_dimms = none →
        dimm_record (prefill_memdb x f s).1 k.1 k.2.1 k.2.2 = dimm_record s k.1 k.2.1 k.2.2) ∧
    (prefill_memdb x f s).2 =
      (if missed_count (fun _ => false) (f.dmi_dimms.map (entry_key f)) ≠ 0
        then ["failed to prefill DIMM database from DMI data"] else []) := by
  obtain ⟨c1, c2, _, _, _⟩ := memdb_config_registry f s
  have hrec : ∀ so ch di : Int,
      dimm_record { memdb_config f s with initialized := 1 } so ch di =
        dimm_record s so ch di :=
    fun so ch di => dimm_record_congr s _ c1 c2 so ch di
  have hno : no_memdev s := (reachable_inv s hr).2 hi
  have hhas : has_memdev { memdb_config f s with initialized := 1 } = fun _ => false := by
    funext k
    have := has_memdev_of_no_memdev s hno k
    unfold has_memdev at this ⊢
    rw [hrec]
    exact this
  have hrf : ∀ k, record_or_fresh x { memdb_config f s with initialized := 1 } k =
      record_or_fresh x s k := by
    intro k
    unfold record_or_fresh
    rw [hrec]
  rw [prefill_memdb_loop x f s hi he hp ho]
  refine ⟨fun s0 i d m k hk hm => prefill_entry_dup x f i d s0 m k hk hm, ?_, ?_, ?_⟩
  · intro k e hfe
    simp only
    rw [prefill_loop_record x f k f.dmi_dimms 0 _ 0, hhas, hfe, hrf]
    simp
  · intro k hfe
    simp only
    rw [prefill_loop_record x f k f.dmi_dimms 0 _ 0, hhas, hfe, hrec]
    simp
  · simp only
    rw [prefill_loop_missed x f f.dmi_dimms 0 _ 0, hhas, Nat.zero_add]

/-- C15 at an instance: the sample inventory on the empty registry; its third entry
repeats the key (0,1,2) of the first, whose name `A1` stays, and its second entry does
not parse. -/
theorem prefill_memdb_metadata_witness :
    dimm_record (prefill_memdb sample_ext sample_firmware
        (memdb_empty sample_conf sample_conf 0)).1 0 1 2 =
      some { record_or_fresh sample_ext (memdb_empty sample_conf sample_conf 0) (0, 1, 2) with
        memdev := some 0, location := some "B_Node0_Channel1_Dimm2", name := some "A1" } ∧
    (prefill_memdb sample_ext sample_firmware (memdb_empty sample_conf sample_conf 0)).2 =
      ["failed to prefill DIMM database from DMI data"] :=
  ⟨(prefill_memdb_metadata sample_ext sample_firmware (memdb_empty sample_conf sample_conf 0)
      (reachable.empty sample_conf sample_conf 0) rfl (by decide) (by decide)
      (by decide)).2.1 (0, 1, 2)
      (0, { bank_locator := "B_Node0_Channel1_Dimm2", device_locator := some "A1" })
      (by decide),
    ((prefill_memdb_metadata sample_ext sample_firmware (memdb_empty sample_conf sample_conf 0)
      (reachable.empty sample_conf sample_conf 0) rfl (by decide) (by decide)
      (by decide)).2.2.2).trans (by decide)⟩

/-- C14 at an instance: the sample inventory on the empty registry, tracking enabled by
the configuration: the second call returns the state of the first and no diagnostic. -/
theorem prefill_memdb_twice_witness :
    prefill_memdb sample_ext sample_firmware
        (prefill_memdb sample_ext sample_firmware (memdb_empty sample_conf sample_conf 0)).1 =
      ((prefill_memdb sample_ext sample_firmware (memdb_empty sample_conf sample_conf 0)).1, []) :=
  (prefill_memdb_twice sample_ext sample_firmware
    (memdb_empty sample_conf sample_conf 0)).2.2.2 (by decide)

/-- C17: in a registry reachable from the empty one by `get_memdimm`, `memory_error` and
`prefill_memdb` calls, `md_numdimms` is the number of addresses on the `SHASH` chains,
which the collection loop of `dump_memory_errors` stores, so the dump runs within its
array; `get_memdimm` leaves the state unchanged on a hit and adds one to the count on a
miss; and no operation removes a record: after any of them the count is not smaller,
every address on the chains is still on them, and its record has the key it had. -/
theorem reachable_numdimms (s : memdb) (hr : reachable s) :
    s.md_numdimms = ((collect_dimms s).length : Int) ∧
    (∀ (x : Ext) (flags : Nat), ∃ out, dump_memory_errors x flags s = some out) ∧
    (∀ (x : Ext) (so ch di : Int),
      (∀ a, find_memdimm s.heap so ch di
          (s.md_dimms (dimmhash (to_unsigned so) di (to_unsigned ch))) = some a →
        (get_memdimm x so ch di s).1 = s) ∧
      (find_memdimm s.heap so ch di
          (s.md_dimms (dimmhash (to_unsigned so) di (to_unsigned ch))) = none →
        (get_memdimm x so ch di s).1.md_numdimms = s.md_numdimms + 1 ∧
        (collect_dimms (get_memdimm x so ch di s).1).length =
          (collect_dimms s).length + 1)) ∧
    (∀ s' : memdb, step s s' →
      s.md_numdimms ≤ s'.md_numdimms ∧
      (collect_dimms s).length ≤ (collect_dimms s').length ∧
      (∀ a ∈ collect_dimms s, a ∈ collect_dimms s') ∧
      (∀ (a : Nat) (md : memdimm), s.heap[a]? = some md →
        ∃ md', s'.heap[a]? = some md' ∧ key_of md' = key_of md)) := by
  obtain ⟨hwf, hno⟩ := reachable_inv s hr
  refine ⟨(collect_dimms_length s hwf).1.symm, fun x flags => dump_memory_errors_some x flags s hwf,
    ?_, ?_⟩
  · intro x so ch di
    refine ⟨(get_memdimm_count x so ch di s).1, ?_⟩
    intro hf
    obtain ⟨h1, h2⟩ := (get_memdimm_count x so ch di s).2 hf
    refine ⟨h1, ?_⟩
    rw [(collect_dimms_length _ (get_memdimm_spec x so ch di s hwf).1).2,
      (collect_dimms_length s hwf).2, h2]
    simp
  · intro s' hstep
    obtain ⟨hwf', hle, _⟩ := step_inv s s' hstep hwf hno
    have hlen : s.heap.length ≤ s'.heap.length := by
      have h1 := hwf.numdimms
      have h2 := hwf'.numdimms
      have h3 := hle.1
      omega
    refine ⟨hle.1, ?_, ?_, hle.2⟩
    · rw [(collect_dimms_length s hwf).2, (collect_dimms_length s' hwf').2]
      exact hlen
    · intro a ha
      rw [mem_collect_dimms s' hwf']
      rw [mem_collect_dimms s hwf] at ha
      omega

/-- C17 at an instance: the registry after one `get_memdimm` call on the empty one. -/
theorem reachable_numdimms_witness :
    (get_memdimm sample_ext 0 1 2 (memdb_empty sample_conf sample_conf 1)).1.md_numdimms =
      ((collect_dimms
        (get_memdimm sample_ext 0 1 2 (memdb_empty sample_conf sample_conf 1)).1).length : Int) ∧
    (get_memdimm sample_ext 0 1 2 (memdb_empty sample_conf sample_conf 1)).1.md_numdimms = 1 :=
  ⟨(reachable_numdimms _ (reachable.next _ _ (reachable.empty sample_conf sample_conf 1)
      (step.get sample_ext 0 1 2 (memdb_empty sample_conf sample_conf 1)))).1, by decide⟩

/-! ## Theorems: frame of `memory_error` -/

/-- C20: a `memory_error` call for the key `k` that returns leaves every record whose key
differs from `k` exactly as it was, at its address and under its key's lookup; a record
with key `k` keeps its key, name, location and firmware reference; no record is removed,
at most one is added, and when one is added the registry had no record for `k` and the
new record has key `k`. -/
theorem memory_error_frame (x : Ext) (now : Nat) (m : mce) (ch dimm : Int) (n : Nat)
    (s s' : memdb) (tr : List effect) (h : memory_error x now m ch dimm n s = some (s', tr)) :
    (∀ (a : Nat) (md : memdimm), s.heap[a]? = some md →
      key_of md ≠ (to_int m.socketid, ch, dimm) → s'.heap[a]? = some md) ∧
    (∀ (a : Nat) (md : memdimm), s.heap[a]? = some md →
      ∃ md', s'.heap[a]? = some md' ∧ key_of md' = key_of md ∧ md'.name = md.name ∧
        md'.location = md.location ∧ md'.memdev = md.memdev) ∧
    (∀ so' ch' di' : Int, (so', ch', di') ≠ (to_int m.socketid, ch, dimm) →
      dimm_record s' so' ch' di' = dimm_record s so' ch' di') ∧
    s.heap.length ≤ s'.heap.length ∧ s'.heap.length ≤ s.heap.length + 1 ∧
    (s'.heap.length = s.heap.length + 1 →
      dimm_record s (to_int m.socketid) ch dimm = none ∧
      ∃ md', s'.heap[s.heap.length]? = some md' ∧
        key_of md' = (to_int m.socketid, ch, dimm)) := by
  by_cases hen : s.memdb_enabled = 0
  · simp only [memory_error, hen, if_true, Option.some.injEq, Prod.mk.injEq] at h
    rw [← h.1]
    refine ⟨fun a md hmd _ => hmd, fun a md hmd => ⟨md, hmd, rfl, rfl, rfl, rfl⟩,
      fun _ _ _ _ => rfl, le_refl _, by omega, fun hc => by omega⟩
  · rw [memory_error_enabled x now m ch dimm n s hen] at h
    simp only [Option.some.injEq, Prod.mk.injEq] at h
    obtain ⟨hfind, md0, hmd0, hk0, hrec⟩ := get_memdimm_record x (to_int m.socketid) ch dimm s
    have hgetD : (get_memdimm x (to_int m.socketid) ch dimm s).1.heap.getD
        (get_memdimm x (to_int m.socketid) ch dimm s).2 memdimm_zero = md0 := by
      rw [List.getD_eq_getElem?_getD, hmd0]
      rfl
    rw [hgetD] at h
    obtain ⟨hpk, hpn, hpl, hpm, _, _⟩ := primary_step_fields x
      (get_memdimm x (to_int m.socketid) ch dimm s).1 (event_time now m) m
      (get_memdimm x (to_int m.socketid) ch dimm s).2
      (lost_step x (get_memdimm x (to_int m.socketid) ch dimm s).1 (event_time now m) n
        (get_memdimm x (to_int m.socketid) ch dimm s).2 md0).1
    obtain ⟨hlk, _, hln, hll, hlm, _⟩ := lost_step_fields x
      (get_memdimm x (to_int m.socketid) ch dimm s).1 (event_time now m) n
      (get_memdimm x (to_int m.socketid) ch dimm s).2 md0
    have hkey := hpk.trans hlk
    have hlt : (get_memdimm x (to_int m.socketid) ch dimm s).2 <
        (get_memdimm x (to_int m.socketid) ch dimm s).1.heap.length := by
      by_contra hc
      rw [List.getElem?_eq_none (by omega)] at hmd0
      cases hmd0
    -- the heap after `get_memdimm`
    have hheap : ∀ (a : Nat) (md : memdimm), s.heap[a]? = some md →
        (get_memdimm x (to_int m.socketid) ch dimm s).1.heap[a]? = some md := by
      intro a md hmd
      obtain ⟨t, ht⟩ := (get_memdimm_spec_heap x (to_int m.socketid) ch dimm s)
      rw [ht]
      have hlt : a < s.heap.length := by
        by_contra hc
        rw [List.getElem?_eq_none (by omega)] at hmd
        cases hmd
      rw [List.getElem?_append_left hlt]
      exact hmd
    rw [← h.1]
    refine ⟨?_, ?_, ?_, ?_, ?_, ?_⟩
    · intro a md hmd hne
      have h1 := hheap a md hmd
      have hab : (get_memdimm x (to_int m.socketid) ch dimm s).2 ≠ a := by
        intro hab
        rw [hab] at hmd0
        rw [hmd0] at h1
        cases h1
        exact hne hk0
      simp only
      rw [List.getElem?_set_ne hab]
      exact h1
    · intro a md hmd
      have h1 := hheap a md hmd
      by_cases hab : (get_memdimm x (to_int m.socketid) ch dimm s).2 = a
      · rw [hab] at hmd0 hlt
        rw [hmd0] at h1
        cases h1
        refine ⟨_, ?_, hkey, hpn.trans hln, hpl.trans hll, hpm.trans hlm⟩
        simp only
        rw [hab, List.getElem?_set_self hlt]
      · exact ⟨md, by simp only; rw [List.getElem?_set_ne hab]; exact h1, rfl, rfl, rfl, rfl⟩
    · intro so' ch' di' hne
      rw [dimm_record_set_frame _ _ md0 _ _ _ _ hmd0 hkey (by rw [hk0]; exact hne)]
      exact dimm_record_get_frame x _ _ _ _ _ _ s hne
    · simp only [List.length_set]
      obtain ⟨t, ht⟩ := (get_memdimm_spec_heap x (to_int m.socketid) ch dimm s)
      rw [ht]
      simp
    · simp only [List.length_set]
      cases hf : find_memdimm s.heap (to_int m.socketid) ch dimm
          (s.md_dimms (dimmhash (to_unsigned (to_int m.socketid)) dimm (to_unsigned ch))) with
      | some a =>
        rw [get_memdimm_hit hf]
        simp
      | none =>
        rw [get_memdimm_miss hf]
        simp
    · simp only [List.length_set]
      intro hlen
      cases hf : find_memdimm s.heap (to_int m.socketid) ch dimm
          (s.md_dimms (dimmhash (to_unsigned (to_int m.socketid)) dimm (to_unsigned ch))) with
      | some a =>
        rw [get_memdimm_hit hf] at hlen
        simp at hlen
      | none =>
        refine ⟨by simp [dimm_record, hf], ?_⟩
        have h2 : (get_memdimm x (to_int m.socketid) ch dimm s).2 = s.heap.length := by
          rw [get_memdimm_miss hf]
        rw [← h2, List.getElem?_set_self hlt]
        exact ⟨_, rfl, hkey.trans hk0⟩

/-- C20 at an instance: a corrected event with lost count 5 for the key (0,1,2) on a
registry that holds the record of (0,0,0): that record is as before, and one record is
added. -/
theorem memory_error_frame_witness :
    ∃ s' tr, memory_error sample_ext 0 { time := 1000, socketid := 0, status := 0 } 1 2 5
        (get_memdimm sample_ext 0 0 0 (memdb_empty sample_conf sample_conf 1)).1 =
        some (s', tr) ∧
      dimm_record s' 0 0 0 =
        dimm_record (get_memdimm sample_ext 0 0 0
          (memdb_empty sample_conf sample_conf 1)).1 0 0 0 ∧
      s'.heap.length ≤
        (get_memdimm sample_ext 0 0 0 (memdb_empty sample_conf sample_conf 1)).1.heap.length
          + 1 := by
  obtain ⟨s', md0, a, hme, _, _⟩ := memory_error_record sample_ext 0
    { time := 1000, socketid := 0, status := 0 } 1 2 5
    (get_memdimm sample_ext 0 0 0 (memdb_empty sample_conf sample_conf 1)).1 (by decide)
  exact ⟨s', _, hme,
    (memory_error_frame sample_ext 0 { time := 1000, socketid := 0, status := 0 } 1 2 5
      _ s' _ hme).2.2.1 0 0 0 (by decide),
    (memory_error_frame sample_ext 0 { time := 1000, socketid := 0, status := 0 } 1 2 5
      _ s' _ hme).2.2.2.2.1⟩

end Memdb
